import Mathlib

/-! # miniroute firewall (`router/sr_firewall.c`)

A shallow embedding of the stateful packet filter of the router: the rule parser, the
netblock matcher, the port extractor, the connection tracker and the inspector, followed by
the properties established about them.

Conventions of the embedding

* C integers are natural numbers or integers; `int` status codes keep their C values
  (`1`, `0`, `-1`).
* The singly linked lists of `struct sr_fw` are Lean lists in link order (head first).
* `time(NULL)` is an argument `now`, in whole seconds; one call of a function reads one clock
  value.
* C strings are lists of characters (the terminating NUL is the end of the list); a NULL
  string pointer handed to a string routine is the result `none` of the function that does so.
* Output parameters and uninitialised locals are state passing: the content before the call
  is an argument, the content after it is part of the result.
* Diagnostics written to `stderr` and `stdout` are left out.
* Where C leaves a result open (a shift by the width of the operand, `atoi` of a value outside
  `int`), the result is what the machine yields, a field of `Host`.
-/

namespace Miniroute

/-! ## Declarations taken from the headers -/

/-- Modelled from the spec: what `sr_firewall.c` takes from its platform and from the headers
`sr_firewall.h` and `sr_protocol.h`, which are not part of the sources at hand: the byte order
of the machine, the constant `SR_FW_CONN_TIMEOUT`, the sizes of the packed header structs, and
the C library routine `inet_aton` (it yields the address as the machine reads the four
network-order bytes, `s_addr`). Two further fields stand for what the machine does where C
leaves the result open: `shift_by_width` is the value it stores for
`(0xFFFFFFFF >> 32) << 32`, the mask expression of `parse_ip_block` when the shift count
equals the width of the operand, and `atoi_out_of_range v` is the `int` that `atoi` returns
for a numeral whose value `v` does not fit an `int`. They are parameters of every definition
that uses them. -/
structure Host where
  little_endian : Bool
  SR_FW_CONN_TIMEOUT : Int
  sizeof_sr_ethernet_hdr_t : Nat
  sizeof_sr_ip_hdr_t : Nat
  sizeof_sr_tcp_hdr_t : Nat
  inet_aton : List Char → Option Nat
  shift_by_width : Nat
  atoi_out_of_range : Int → Int

/-- Modelled from the spec: the enum constant `ICMP` of `sr_protocol.h`; the code compares it
with the protocol field of the IP header, so it is the protocol number of ICMP. -/
def ICMP : Nat := 1

/-- Modelled from the spec: the enum constant `TCP` of `sr_protocol.h` (IP protocol number). -/
def TCP : Nat := 6

/-- Modelled from the spec: the enum constant `UDP` of `sr_protocol.h` (IP protocol number). -/
def UDP : Nat := 17

/-- Modelled from the spec: the verdict type `sr_fw_action` of `sr_firewall.h`. -/
inductive sr_fw_action where
  | ALLOW
  | DENY
deriving DecidableEq, Repr

/-- Modelled from the spec: the direction of a rule (`IN`, `OUT`, `BOTH` of `sr_firewall.h`). -/
inductive sr_fw_direction where
  | IN
  | OUT
  | BOTH
deriving DecidableEq, Repr

export sr_fw_action (ALLOW DENY)
export sr_fw_direction (IN OUT BOTH)

/-- Modelled from the spec: `sr_fw_rule_t` of `sr_firewall.h`, with the fields that
`sr_firewall.c` reads and writes; the `next` link is the position in the rule list. -/
structure sr_fw_rule_t where
  action : sr_fw_action
  protocol : Nat
  direction : sr_fw_direction
  src_addr : Nat
  src_mask : Nat
  src_port : Nat
  dst_addr : Nat
  dst_mask : Nat
  dst_port : Nat
deriving DecidableEq, Repr

/-- Modelled from the spec: `sr_connection_t` of `sr_firewall.h`, with the fields that
`sr_firewall.c` reads and writes; the `next` link is the position in the connection list. -/
structure sr_connection_t where
  protocol : Nat
  src_addr : Nat
  src_port : Nat
  dst_addr : Nat
  dst_port : Nat
  last_seen : Int
deriving DecidableEq, Repr

/-- Modelled from the spec: `struct sr_fw` of `sr_firewall.h`: the rule list and the
connection list, both head first. -/
structure sr_fw where
  rules : List sr_fw_rule_t
  connections : List sr_connection_t
deriving DecidableEq, Repr

/-- Modelled from the spec: the packet as `sr_firewall.c` sees it through the header structs
of `sr_protocol.h` (`sr_ip_hdr_t`, `sr_tcp_hdr_t`, `sr_udp_hdr_t`), whose layout is not part of
the sources at hand. Each field is the value the machine reads from the struct member, so
addresses and ports are in network byte order; `udp_cksum` is the value of
`cksum(udphdr, sizeof(sr_udp_hdr_t))` (`cksum` belongs to `sr_utils.c`). -/
structure Packet where
  ip_p : Nat
  ip_src : Nat
  ip_dst : Nat
  tcp_src_port : Nat
  tcp_dst_port : Nat
  udp_src_port : Nat
  udp_dst_port : Nat
  udp_cksum : Nat
deriving DecidableEq, Repr

/-! ## C library routines used by the firewall core -/

/-- Exchange of the two bytes of a 16-bit value. -/
def bswap16 (x : Nat) : Nat := (x % 256) * 256 + (x / 256) % 256

/-- The routine `ntohs`: network to host byte order for 16-bit values. -/
def ntohs (H : Host) (x : Nat) : Nat :=
  if H.little_endian then bswap16 x else x % 65536

/-- The routine `difftime` on whole seconds. -/
def difftime (t1 t0 : Int) : Int := t1 - t0

/-! ## Netblock and flow matching (the two macros) -/

/-- The macro `sr_match_netblock(host, net, mask)`. -/
def sr_match_netblock (host net mask : Nat) : Bool :=
  decide ((net &&& mask) = (host &&& mask))

/-- The macro `sr_match_bothdir`. -/
def sr_match_bothdir (src srcport dst dstport src2 src2port dst2 dst2port : Nat) : Bool :=
  (decide (src = src2) && decide (srcport = src2port) && decide (dst = dst2)
      && decide (dstport = dst2port))
    || (decide (src = dst2) && decide (srcport = dst2port) && decide (dst = src2)
      && decide (dstport = src2port))

/-! ## Port extraction -/

/-- The function `sr_get_ports`. The arguments `src_port` and `dst_port` are the contents of
the two output locations before the call; the result is the return value and the contents of
the two locations after it. The `switch` has no `default` branch. -/
def sr_get_ports (H : Host) (packet : Packet) (len : Nat) (src_port dst_port : Nat) :
    Int × Nat × Nat :=
  if packet.ip_p = ICMP then (1, 0, 0)
  else if packet.ip_p = TCP then
    if len < H.sizeof_sr_tcp_hdr_t + H.sizeof_sr_ip_hdr_t + H.sizeof_sr_ethernet_hdr_t then
      (0, src_port, dst_port)
    else (1, ntohs H packet.tcp_src_port, ntohs H packet.tcp_dst_port)
  else if packet.ip_p = UDP then
    if packet.udp_cksum ≠ 0xFFFF then (0, src_port, dst_port)
    else (1, ntohs H packet.udp_src_port, ntohs H packet.udp_dst_port)
  else (1, src_port, dst_port)

/-! ## Connection tracker -/

/-- The `while` loop of `sr_fw_match_connections`. `before` holds the entries from the head of
the list up to `prev` (it is empty exactly when `prev == NULL`), the last argument is the list
from `conn` on. The result is the return value and the connection list after the call. -/
def sr_fw_match_connections_loop (H : Host) (currtime : Int)
    (protocol ip_src ip_dst src_port dst_port : Nat) :
    List sr_connection_t → List sr_connection_t → Int × List sr_connection_t
  | before, [] => (0, before)
  | before, conn :: next =>
    if difftime currtime conn.last_seen > H.SR_FW_CONN_TIMEOUT then
      -- timed out: unlink and free `conn`
      match before with
      | [] => (0, next)      -- `prev == NULL`: head := conn->next, then `conn = NULL`
      | p :: ps =>           -- `prev->next = conn->next; conn = prev->next`
        sr_fw_match_connections_loop H currtime protocol ip_src ip_dst src_port dst_port
          (p :: ps) next
    else if conn.protocol = protocol
        ∧ sr_match_bothdir ip_src src_port ip_dst dst_port
            conn.src_addr conn.src_port conn.dst_addr conn.dst_port = true then
      -- match: update last seen, move to front
      match before with
      | [] => (1, { conn with last_seen := currtime } :: next)
      | p :: ps => (1, { conn with last_seen := currtime } :: ((p :: ps) ++ next))
    else
      sr_fw_match_connections_loop H currtime protocol ip_src ip_dst src_port dst_port
        (before ++ [conn]) next

/-- The function `sr_fw_match_connections`; `now` is the value of `time(NULL)`. -/
def sr_fw_match_connections (H : Host) (fw : sr_fw) (now : Int)
    (protocol ip_src ip_dst src_port dst_port : Nat) : Int × sr_fw :=
  match fw.connections with
  | [] => (0, fw)
  | conn :: next =>
    let r := sr_fw_match_connections_loop H now protocol ip_src ip_dst src_port dst_port
      [] (conn :: next)
    (r.1, { fw with connections := r.2 })

/-- The function `sr_fw_add_connection`; `now` is the value of `time(NULL)`. -/
def sr_fw_add_connection (fw : sr_fw) (now : Int)
    (protocol ip_src ip_dst src_port dst_port : Nat) : sr_fw :=
  { fw with connections :=
      { protocol := protocol, src_addr := ip_src, src_port := src_port,
        dst_addr := ip_dst, dst_port := dst_port, last_seen := now } :: fw.connections }

/-! ## Rule matching and inspection -/

/-- The function `sr_fw_match`. -/
def sr_fw_match (rule : sr_fw_rule_t) (protocol ip_src ip_dst src_port dst_port : Nat) : Int :=
  if rule.protocol ≠ protocol then 0
  else if ¬ (sr_match_netblock ip_src rule.src_addr rule.src_mask = true) then 0
  else if ¬ (sr_match_netblock ip_dst rule.dst_addr rule.dst_mask = true) then 0
  else if rule.src_port ≠ 0 ∧ rule.src_port ≠ src_port then 0
  else if rule.dst_port ≠ 0 ∧ rule.dst_port ≠ dst_port then 0
  else 1

/-- The rule loop of `sr_fw_inspect` (`while (rule != NULL)`), started at `rule`; `fw` is the
firewall state when the loop is entered. -/
def sr_fw_inspect_rules (fw : sr_fw) (now : Int)
    (protocol ip_src ip_dst src_port dst_port : Nat) : List sr_fw_rule_t → sr_fw_action × sr_fw
  | [] => (ALLOW, fw)
  | rule :: next =>
    if sr_fw_match rule protocol ip_src ip_dst src_port dst_port ≠ 0 then
      (rule.action,
        if rule.action = ALLOW then
          sr_fw_add_connection fw now protocol ip_src ip_dst src_port dst_port
        else fw)
    else sr_fw_inspect_rules fw now protocol ip_src ip_dst src_port dst_port next

/-- The function `sr_fw_inspect`. `now` is the clock value of the call; `src_port` and
`dst_port` are the contents of the two local variables of that name before `sr_get_ports`
writes them (they are declared without an initial value). The result is the verdict and the
firewall state after the call. -/
def sr_fw_inspect (H : Host) (fw : sr_fw) (now : Int) (packet : Packet) (len : Nat)
    (src_port dst_port : Nat) : sr_fw_action × sr_fw :=
  if packet.ip_p = ICMP then (ALLOW, fw)
  else
    let protocol := packet.ip_p
    let ip_src := packet.ip_src
    let ip_dst := packet.ip_dst
    let g := sr_get_ports H packet len src_port dst_port
    if g.1 = 0 then (DENY, fw)
    else
      let m := sr_fw_match_connections H fw now protocol ip_src ip_dst g.2.1 g.2.2
      if m.1 ≠ 0 then (ALLOW, m.2)
      else sr_fw_inspect_rules m.2 now protocol ip_src ip_dst g.2.1 g.2.2 m.2.rules

/-! ## C library routines used by the rule parser -/

/-- The routine `strcmp`: 0 when the strings are equal, otherwise the difference of the first
pair of characters that differ (the end of a string counts as the character 0). -/
def strcmp : List Char → List Char → Int
  | [], [] => 0
  | [], b :: _ => - (b.toNat : Int)
  | a :: _, [] => (a.toNat : Int)
  | a :: s1, b :: s2 => if a = b then strcmp s1 s2 else (a.toNat : Int) - (b.toNat : Int)

/-- The routine `strncmp`: `strcmp` on at most `n` characters. -/
def strncmp : List Char → List Char → Nat → Int
  | _, _, 0 => 0
  | [], [], _ + 1 => 0
  | [], b :: _, _ + 1 => - (b.toNat : Int)
  | a :: _, [], _ + 1 => (a.toNat : Int)
  | a :: s1, b :: s2, n + 1 =>
    if a = b then strncmp s1 s2 n else (a.toNat : Int) - (b.toNat : Int)

/-- The routine `strchr`: the offset of the first occurrence of `c` in `s`, if any. -/
def strchr (s : List Char) (c : Char) : Option Nat :=
  if c ∈ s then some (s.indexOf c) else none

/-- The routine `isspace` in the C locale. -/
def isspace (c : Char) : Bool :=
  c = ' ' || (9 ≤ c.toNat && c.toNat ≤ 13)

/-- The digit loop of `atoi`: the value of the longest prefix of decimal digits (the
characters `0` to `9`, codes 48 to 57), continuing the value `acc` read so far. -/
def atoi_digits (acc : Nat) : List Char → Nat
  | [] => acc
  | c :: cs =>
    if 48 ≤ c.toNat ∧ c.toNat ≤ 57 then atoi_digits (acc * 10 + (c.toNat - 48)) cs else acc

/-- The routine `atoi`: leading white space, an optional sign, then decimal digits; 0 when
there is no digit. When the value fits an `int` (32 bits) it is the result; otherwise C leaves
the result open and the machine decides (`Host.atoi_out_of_range`). -/
def atoi (H : Host) (s : List Char) : Int :=
  let v : Int :=
    match s.dropWhile isspace with
    | '-' :: cs => - (atoi_digits 0 cs : Int)
    | '+' :: cs => (atoi_digits 0 cs : Int)
    | cs => (atoi_digits 0 cs : Int)
  if -2147483648 ≤ v ∧ v ≤ 2147483647 then v else H.atoi_out_of_range v

/-- The delimiter set `DELIMITER` of the rule parser: space, tab, carriage return, newline. -/
def DELIMITER : List Char := [' ', '\t', '\r', '\n']

/-- The routine `strtok` with the delimiters `DELIMITER`, as a function of the text still to
be scanned: `none` is the NULL result; otherwise the token and the text that a later call
`strtok(NULL, DELIMITER)` scans (what follows the delimiter that ended the token). -/
def strtok (s : List Char) : Option (List Char × List Char) :=
  match s.dropWhile (fun c => decide (c ∈ DELIMITER)) with
  | [] => none
  | c :: cs =>
    some ((c :: cs).takeWhile (fun c => !decide (c ∈ DELIMITER)),
      ((c :: cs).dropWhile (fun c => !decide (c ∈ DELIMITER))).drop 1)

/-! ## Rule parser -/

def ACTION_ALLOW : List Char := "allow".toList
def ACTION_DENY : List Char := "deny".toList
def PROTO_TCP : List Char := "tcp".toList
def PROTO_UDP : List Char := "udp".toList
def PROTO_ICMP : List Char := "icmp".toList
def IP_BLOCK : Char := '/'
def FW_FROM : List Char := "from".toList
def FW_TO : List Char := "to".toList
def FW_ANY : List Char := "any".toList
def DIR_IN : List Char := "in".toList
def DIR_OUT : List Char := "out".toList
def PORT_MAX : Int := 65535

/-- The function `parse_ip_block` on a token `sp` (not NULL). The arguments `addr` and `mask`
are the contents of the two output locations before the call; the result is the return value
(`1` or `-1`) and the contents of the two locations after it. The mask is
`(0xFFFFFFFF >> cidr) << cidr` on 32 bits, with `cidr` already replaced by `32 - cidr`. For a
shift count below 32 that is the value C defines; for a CIDR length of 0 the shift count is
32, the width of the operand, C leaves the expression open and the mask is what the machine
stores (`Host.shift_by_width`). -/
def parse_ip_block (H : Host) (sp : List Char) (addr mask : Nat) : Int × Nat × Nat :=
  if strcmp sp FW_ANY = 0 then (1, 0, 0)
  else
    match strchr sp IP_BLOCK with
    | none => (-1, addr, mask)
    | some i =>
      -- `*cp = 0; ++cp`: `sp` now ends where the separator was, `cp` starts after it
      let cp := sp.drop (i + 1)
      match H.inet_aton (sp.take i) with
      | none => (-1, addr, mask)
      | some s_addr =>
        let cidr := atoi H cp
        if cidr < 0 ∨ cidr > 32 then (-1, s_addr, mask)
        else
          let cidr := 32 - cidr
          (1, s_addr,
            if cidr.toNat < 32 then ((0xFFFFFFFF >>> cidr.toNat) <<< cidr.toNat) % 2 ^ 32
            else H.shift_by_width % 2 ^ 32)

/-- The function `sr_parse_fw_rule`. `rule` is the content of the rule record before the call;
the result is `none` when the function passes a NULL token of `strtok` to a string routine,
and otherwise the return value (`0` or `-1`) and the content of the record after the call. -/
def sr_parse_fw_rule (H : Host) (line : List Char) (rule : sr_fw_rule_t) :
    Option (Int × sr_fw_rule_t) :=
  -- <action>
  match strtok line with
  | none => none
  | some (sp, s1) =>
    let act : Option sr_fw_action :=
      if strncmp sp ACTION_ALLOW 5 = 0 then some ALLOW
      else if strncmp sp ACTION_DENY 4 = 0 then some DENY
      else none
    match act with
    | none => some (-1, rule)
    | some a =>
      let rule := { rule with action := a }
      -- <protocol>
      match strtok s1 with
      | none => none
      | some (sp, s2) =>
        let proto : Option Nat :=
          if strncmp sp PROTO_TCP 3 = 0 then some TCP
          else if strncmp sp PROTO_UDP 3 = 0 then some UDP
          else if strncmp sp PROTO_ICMP 4 = 0 then some ICMP
          else none
        match proto with
        | none => some (-1, rule)
        | some p =>
          let rule := { rule with protocol := p }
          -- from
          match strtok s2 with
          | none => none
          | some (sp, s3) =>
            if strncmp sp FW_FROM 4 ≠ 0 then some (-1, rule)
            else
              -- <incoming IP block>
              match strtok s3 with
              | none => none
              | some (sp, s4) =>
                let b := parse_ip_block H sp rule.src_addr rule.src_mask
                let rule := { rule with src_addr := b.2.1, src_mask := b.2.2 }
                if b.1 = -1 then some (-1, rule)
                else
                  -- [<optional incoming port>] to
                  match strtok s4 with
                  | none => none
                  | some (sp, s5) =>
                    let port : Option Nat :=
                      if strcmp sp FW_TO ≠ 0 then
                        let i := atoi H sp
                        if i < 1 ∨ i > PORT_MAX then none else some i.toNat
                      else some 0
                    match port with
                    | none => some (-1, rule)
                    | some sport =>
                      let rule := { rule with src_port := sport }
                      -- <outgoing IP block>
                      match strtok s5 with
                      | none => none
                      | some (sp, s6) =>
                        let b := parse_ip_block H sp rule.dst_addr rule.dst_mask
                        let rule := { rule with dst_addr := b.2.1, dst_mask := b.2.2 }
                        if b.1 = -1 then some (-1, rule)
                        else
                          let rule := { rule with dst_port := 0, direction := BOTH }
                          match strtok s6 with
                          | none => some (0, rule)
                          | some (sp, s7) =>
                            -- [<optional outgoing port>]
                            let i := atoi H sp
                            if i < 1 ∨ i > PORT_MAX then some (-1, rule)
                            else
                              let rule := { rule with dst_port := i.toNat }
                              match strtok s7 with
                              | none => some (0, rule)
                              | some (sp, _) =>
                                -- [<optional direction>]
                                if strncmp sp DIR_IN 3 = 0 then
                                  some (0, { rule with direction := IN })
                                else if strncmp sp DIR_OUT 3 = 0 then
                                  some (0, { rule with direction := OUT })
                                else some (-1, rule)

/-! ## Rule table: initialisation and loading -/

/-- The function `sr_add_fw_rule`: a copy of the rule is linked at the end of the rule list. -/
def sr_add_fw_rule (fw : sr_fw) (rule : sr_fw_rule_t) : sr_fw :=
  { fw with rules := fw.rules ++ [rule] }

/-- The function `sr_init_fw`: both lists are set to NULL. -/
def sr_init_fw (_fw : sr_fw) : sr_fw :=
  { rules := [], connections := [] }

/-- Modelled from the spec: the local record `fw_rule` of `sr_load_fw` after
`memset(&fw_rule, 0, sizeof(fw_rule))`. The numeric fields are 0; the two enum fields hold the
constants of value 0, which `sr_firewall.h` (not part of the sources at hand) fixes, so they
are the parameters `action0` and `direction0`. -/
def fw_rule_zero (action0 : sr_fw_action) (direction0 : sr_fw_direction) : sr_fw_rule_t :=
  { action := action0, protocol := 0, direction := direction0, src_addr := 0, src_mask := 0,
    src_port := 0, dst_addr := 0, dst_mask := 0, dst_port := 0 }

/-- The `while` loop of `sr_load_fw` over the lines that `fgets` returns, in file order. The
result is `none` when `sr_parse_fw_rule` passes a NULL token to a string routine on some line,
and otherwise the firewall state when the end of the file is reached. -/
def sr_load_fw_loop (H : Host) (action0 : sr_fw_action) (direction0 : sr_fw_direction) :
    sr_fw → List (List Char) → Option sr_fw
  | fw, [] => some fw
  | fw, line :: rest =>
    match sr_parse_fw_rule H line (fw_rule_zero action0 direction0) with
    | none => none
    | some (code, fw_rule) =>
      if code ≠ -1 then
        sr_load_fw_loop H action0 direction0 (sr_add_fw_rule fw fw_rule) rest
      else sr_load_fw_loop H action0 direction0 fw rest

/-- The function `sr_load_fw`. The file is `none` when `access(filename, R_OK)` fails, and
otherwise the list of its lines as `fgets` returns them. The result is `none` when the parser
passes a NULL token to a string routine, and otherwise the return value (`0` or `-1`) and the
firewall state after the call. -/
def sr_load_fw (H : Host) (action0 : sr_fw_action) (direction0 : sr_fw_direction)
    (fw : sr_fw) (file : Option (List (List Char))) : Option (Int × sr_fw) :=
  match file with
  | none => some (-1, fw)
  | some lines =>
    match sr_load_fw_loop H action0 direction0 fw lines with
    | none => none
    | some fw1 => some (0, fw1)

/-! ## Reference notions used to state the properties -/

/-- An entry of the connection table is expired at `now`: its age exceeds the timeout. -/
def expired (H : Host) (now : Int) (c : sr_connection_t) : Prop :=
  now - c.last_seen > H.SR_FW_CONN_TIMEOUT

instance (H : Host) (now : Int) (c : sr_connection_t) : Decidable (expired H now c) := by
  unfold expired; infer_instance

/-- An entry of the connection table records the flow of a query: same protocol and the same
endpoint pair in either orientation. -/
def same_flow (c : sr_connection_t) (protocol ip_src ip_dst src_port dst_port : Nat) : Prop :=
  c.protocol = protocol ∧
    ((ip_src = c.src_addr ∧ src_port = c.src_port ∧ ip_dst = c.dst_addr ∧ dst_port = c.dst_port)
      ∨ (ip_src = c.dst_addr ∧ src_port = c.dst_port ∧ ip_dst = c.src_addr
          ∧ dst_port = c.src_port))

instance (c : sr_connection_t) (protocol ip_src ip_dst src_port dst_port : Nat) :
    Decidable (same_flow c protocol ip_src ip_dst src_port dst_port) := by
  unfold same_flow; infer_instance

/-- The verdict of the rule table alone: the action of the first rule, in table order, that
`sr_fw_match` accepts, and `ALLOW` when there is none. -/
def first_match_verdict (rules : List sr_fw_rule_t)
    (protocol ip_src ip_dst src_port dst_port : Nat) : sr_fw_action :=
  match rules.find? (fun r => decide (sr_fw_match r protocol ip_src ip_dst src_port dst_port = 1))
  with
  | some r => r.action
  | none => ALLOW

/-- The parts of a string between its dots. -/
def split_dots : List Char → List (List Char)
  | [] => [[]]
  | c :: cs =>
    if c = '.' then [] :: split_dots cs
    else
      match split_dots cs with
      | [] => [[c]]
      | p :: ps => (c :: p) :: ps

/-- A decimal numeral between 0 and 255 without a leading zero. -/
def octet (s : List Char) : Option Nat :=
  if s ≠ [] ∧ (∀ c ∈ s, 48 ≤ c.toNat ∧ c.toNat ≤ 57) ∧ (s.length = 1 ∨ s.head? ≠ some '0')
      ∧ atoi_digits 0 s ≤ 255 then
    some (atoi_digits 0 s)
  else none

/-- The value `inet_aton` stores for an address in dotted-decimal form `a.b.c.d`: the four
octets in network order, read as a 32-bit number by a little-endian or a big-endian machine.
Other spellings of an address are not accepted by this instance; it serves the worked
instances only. -/
def inet_aton_quad (little_endian : Bool) (s : List Char) : Option Nat :=
  match (split_dots s).map octet with
  | [some a, some b, some c, some d] =>
    if little_endian then some (a + b * 2 ^ 8 + c * 2 ^ 16 + d * 2 ^ 24)
    else some (a * 2 ^ 24 + b * 2 ^ 16 + c * 2 ^ 8 + d)
  | _ => none

/-- What `atoi` of the GNU C library returns on a 64-bit machine for a value outside `int`:
the value saturated to a 64-bit `long`, of which the low 32 bits are kept as an `int`. -/
def atoi_wrap (v : Int) : Int :=
  (max (-9223372036854775808) (min v 9223372036854775807) + 2147483648) % 4294967296
    - 2147483648

/-- An example machine for the worked instances: little-endian, a timeout of 60 seconds,
the usual sizes of the Ethernet, IPv4 and TCP headers, dotted-decimal address literals; a
shift count equal to the width of the operand is taken modulo 32, as the x86 shift
instructions do, and `atoi` is that of the GNU C library on a 64-bit machine. -/
def example_host : Host where
  little_endian := true
  SR_FW_CONN_TIMEOUT := 60
  sizeof_sr_ethernet_hdr_t := 14
  sizeof_sr_ip_hdr_t := 20
  sizeof_sr_tcp_hdr_t := 20
  inet_aton := inet_aton_quad true
  shift_by_width := 0xFFFFFFFF
  atoi_out_of_range := atoi_wrap

/-- The big-endian counterpart of `example_host`; a shift by the width of the operand
yields 0 on it. -/
def example_host_be : Host where
  little_endian := false
  SR_FW_CONN_TIMEOUT := 60
  sizeof_sr_ethernet_hdr_t := 14
  sizeof_sr_ip_hdr_t := 20
  sizeof_sr_tcp_hdr_t := 20
  inet_aton := inet_aton_quad false
  shift_by_width := 0
  atoi_out_of_range := atoi_wrap

/-- A token as `strtok` yields it: not empty, without delimiter. -/
def is_token (t : List Char) : Prop := t ≠ [] ∧ ∀ c ∈ t, c ∉ DELIMITER

/-- A run of delimiters, possibly empty. -/
def is_blank (w : List Char) : Prop := ∀ c ∈ w, c ∈ DELIMITER

/-- A separator: a run of delimiters that is not empty. -/
def is_separator (w : List Char) : Prop := w ≠ [] ∧ ∀ c ∈ w, c ∈ DELIMITER

/-- A valid netblock token: `any`, or an address literal that `inet_aton` accepts, a slash and
the decimal numeral of a length from 0 to 32. The literal is a piece of a token of a C string:
it holds no NUL, no delimiter and no slash. -/
def valid_netblock (H : Host) (tok : List Char) : Prop :=
  tok = FW_ANY ∨
    ∃ (lit : List Char) (n : Nat), tok = lit ++ IP_BLOCK :: Nat.toDigits 10 n ∧ n ≤ 32
      ∧ (H.inet_aton lit).isSome = true
      ∧ ∀ c ∈ lit, c ∉ DELIMITER ∧ c ≠ IP_BLOCK ∧ c.toNat ≠ 0

/-- A rule line up to and including the destination netblock, followed by `tail`:
`<action> <protocol> from <src> to <dst>` with the blank `w0` in front and the separators
`w1` to `w5` between the tokens. -/
def rule_line (w0 atok w1 ptok w2 w3 src w4 w5 dst tail : List Char) : List Char :=
  w0 ++ atok ++ (w1 ++ ptok ++ (w2 ++ FW_FROM ++ (w3 ++ src ++ (w4 ++ FW_TO
    ++ (w5 ++ dst ++ tail)))))

/-- The rule a line without source port stands for: the given action, protocol, destination
port and direction, source port 0, and the netblocks as `parse_ip_block` yields them for the
two netblock tokens (`rule` is the content of the record before parsing). -/
def parsed_rule (H : Host) (rule : sr_fw_rule_t) (a : sr_fw_action) (p : Nat)
    (src dst : List Char) (dst_port : Nat) (d : sr_fw_direction) : sr_fw_rule_t :=
  { action := a, protocol := p, direction := d,
    src_addr := (parse_ip_block H src rule.src_addr rule.src_mask).2.1,
    src_mask := (parse_ip_block H src rule.src_addr rule.src_mask).2.2,
    src_port := 0,
    dst_addr := (parse_ip_block H dst rule.dst_addr rule.dst_mask).2.1,
    dst_mask := (parse_ip_block H dst rule.dst_addr rule.dst_mask).2.2,
    dst_port := dst_port }

/-- Exchange of the four bytes of a 32-bit value. -/
def bswap32 (x : Nat) : Nat :=
  (x % 256) * 2 ^ 24 + (x / 2 ^ 8 % 256) * 2 ^ 16 + (x / 2 ^ 16 % 256) * 2 ^ 8
    + x / 2 ^ 24 % 256

/-- The routine `ntohl`: the number whose most significant octet is the first of the four
network-order bytes that the machine reads as `x`. -/
def ntohl (H : Host) (x : Nat) : Nat :=
  if H.little_endian then bswap32 x else x % 2 ^ 32

/-- The `c` most significant bits, first octet most significant, of an address that the
machine reads as `x`. -/
def top_bits (H : Host) (c : Nat) (x : Nat) : Nat := ntohl H x / 2 ^ (32 - c)

/-- One call of `sr_fw_inspect`: the clock value, the packet and its length, and the stale
content of the two port locals. -/
structure inspect_call where
  now : Int
  packet : Packet
  len : Nat
  src_port : Nat
  dst_port : Nat

/-- The firewall state after a sequence of `sr_fw_inspect` calls, first call first. -/
def sr_fw_inspect_all (H : Host) : sr_fw → List inspect_call → sr_fw
  | fw, [] => fw
  | fw, c :: cs =>
    sr_fw_inspect_all H (sr_fw_inspect H fw c.now c.packet c.len c.src_port c.dst_port).2 cs

/-- Recency order of a connection list at `now`: the `last_seen` values do not increase from
the head on, and none is later than `now`. -/
def recency_ordered (now : Int) (l : List sr_connection_t) : Prop :=
  List.Pairwise (fun a b => a.last_seen ≥ b.last_seen) l ∧ ∀ e ∈ l, e.last_seen ≤ now

/-- The flow an entry records: protocol, source address and port, destination address and
port. -/
def flow_key (c : sr_connection_t) : Nat × Nat × Nat × Nat × Nat :=
  (c.protocol, c.src_addr, c.src_port, c.dst_addr, c.dst_port)

/-- The first rule of the table, in table order, that `sr_fw_match` accepts for a flow. -/
def first_match (rules : List sr_fw_rule_t)
    (protocol ip_src ip_dst src_port dst_port : Nat) : Option sr_fw_rule_t :=
  rules.find? (fun r => decide (sr_fw_match r protocol ip_src ip_dst src_port dst_port = 1))

/-- An entry records a flow that the rule table allows: its protocol is TCP or UDP and the
first rule that matches the recorded flow has action `ALLOW`. -/
def allowed_flow (rules : List sr_fw_rule_t) (c : sr_connection_t) : Prop :=
  (c.protocol = TCP ∨ c.protocol = UDP) ∧
    ∃ r, first_match rules c.protocol c.src_addr c.dst_addr c.src_port c.dst_port = some r
      ∧ r.action = ALLOW

/-- The rule table is one the data model admits: every rule names TCP, UDP or ICMP. -/
def rules_well_formed (rules : List sr_fw_rule_t) : Prop :=
  ∀ r ∈ rules, r.protocol = TCP ∨ r.protocol = UDP ∨ r.protocol = ICMP

/-! ## Worked instances

Addresses and ports below are written as a little-endian machine reads the network-order
bytes: `10.0.0.1` is `0x0100000A`, `10.0.0.5` is `0x0500000A`; port `22` is `0x1600`,
port `80` is `0x5000`, port `1000` is `0xE803`. -/

/-- The rule `deny tcp from any to 10.0.0.5/32 22`. -/
def rule_deny_ssh : sr_fw_rule_t :=
  { action := DENY, protocol := TCP, direction := BOTH, src_addr := 0, src_mask := 0,
    src_port := 0, dst_addr := 0x0500000A, dst_mask := 0xFFFFFFFF, dst_port := 22 }

/-- The rule `allow tcp from any to any`. -/
def rule_allow_tcp : sr_fw_rule_t :=
  { action := ALLOW, protocol := TCP, direction := BOTH, src_addr := 0, src_mask := 0,
    src_port := 0, dst_addr := 0, dst_mask := 0, dst_port := 0 }

/-- The rule `deny icmp from any to any`. -/
def rule_deny_icmp : sr_fw_rule_t :=
  { action := DENY, protocol := ICMP, direction := BOTH, src_addr := 0, src_mask := 0,
    src_port := 0, dst_addr := 0, dst_mask := 0, dst_port := 0 }

/-- The rule `deny tcp from 10.0.0.5/32 to 10.0.0.1/32`. -/
def rule_deny_reply : sr_fw_rule_t :=
  { action := DENY, protocol := TCP, direction := BOTH, src_addr := 0x0500000A,
    src_mask := 0xFFFFFFFF, src_port := 0, dst_addr := 0x0100000A, dst_mask := 0xFFFFFFFF,
    dst_port := 0 }

/-- A TCP segment from `10.0.0.1:1000` to `10.0.0.5:22`. -/
def packet_ssh : Packet :=
  { ip_p := TCP, ip_src := 0x0100000A, ip_dst := 0x0500000A, tcp_src_port := 0xE803,
    tcp_dst_port := 0x1600, udp_src_port := 0xE803, udp_dst_port := 0x1600, udp_cksum := 0 }

/-- A TCP segment from `10.0.0.1:1000` to `10.0.0.5:80`. -/
def packet_request : Packet :=
  { ip_p := TCP, ip_src := 0x0100000A, ip_dst := 0x0500000A, tcp_src_port := 0xE803,
    tcp_dst_port := 0x5000, udp_src_port := 0xE803, udp_dst_port := 0x5000, udp_cksum := 0 }

/-- The reply to `packet_request`: a TCP segment from `10.0.0.5:80` to `10.0.0.1:1000`. -/
def packet_reply : Packet :=
  { ip_p := TCP, ip_src := 0x0500000A, ip_dst := 0x0100000A, tcp_src_port := 0x5000,
    tcp_dst_port := 0xE803, udp_src_port := 0x5000, udp_dst_port := 0xE803, udp_cksum := 0 }

/-- An ICMP packet from `10.0.0.1` to `10.0.0.5`. -/
def packet_icmp : Packet :=
  { ip_p := ICMP, ip_src := 0x0100000A, ip_dst := 0x0500000A, tcp_src_port := 0,
    tcp_dst_port := 0, udp_src_port := 0, udp_dst_port := 0, udp_cksum := 0 }

/-- A UDP datagram from `10.0.0.1:1000` to `10.0.0.5:80` whose header checksum value is
`0x1234`. -/
def packet_udp_bad : Packet :=
  { ip_p := UDP, ip_src := 0x0100000A, ip_dst := 0x0500000A, tcp_src_port := 0xE803,
    tcp_dst_port := 0x5000, udp_src_port := 0xE803, udp_dst_port := 0x5000,
    udp_cksum := 0x1234 }

/-- A packet of IP protocol 47 (GRE) from `10.0.0.1` to `10.0.0.5`. -/
def packet_gre : Packet :=
  { ip_p := 47, ip_src := 0x0100000A, ip_dst := 0x0500000A, tcp_src_port := 0,
    tcp_dst_port := 0, udp_src_port := 0, udp_dst_port := 0, udp_cksum := 0 }

/-- The connection entry of the flow `10.0.0.1:1000 -> 10.0.0.5:80` over TCP. -/
def conn_request (last_seen : Int) : sr_connection_t :=
  { protocol := TCP, src_addr := 0x0100000A, src_port := 1000, dst_addr := 0x0500000A,
    dst_port := 80, last_seen := last_seen }

/-- The rule `allow udp from any to any`. -/
def rule_allow_udp : sr_fw_rule_t :=
  { action := ALLOW, protocol := UDP, direction := BOTH, src_addr := 0, src_mask := 0,
    src_port := 0, dst_addr := 0, dst_mask := 0, dst_port := 0 }

/-- The connection entry of the flow `10.0.0.1:1000 -> 10.0.0.5:80` over UDP. -/
def conn_udp (last_seen : Int) : sr_connection_t :=
  { protocol := UDP, src_addr := 0x0100000A, src_port := 1000, dst_addr := 0x0500000A,
    dst_port := 80, last_seen := last_seen }

/-- The connection entry of the flow `10.0.0.7:4000 -> 10.0.0.9:53` over UDP. -/
def conn_other (last_seen : Int) : sr_connection_t :=
  { protocol := UDP, src_addr := 0x0700000A, src_port := 4000, dst_addr := 0x0900000A,
    dst_port := 53, last_seen := last_seen }

/-- The rules a rule file stands for: in file order, the records that `sr_parse_fw_rule`
yields for the lines on which it succeeds (it does not return -1), each parsed from the zeroed
record. -/
def rules_of_lines (H : Host) (action0 : sr_fw_action) (direction0 : sr_fw_direction)
    (lines : List (List Char)) : List sr_fw_rule_t :=
  lines.filterMap (fun line =>
    match sr_parse_fw_rule H line (fw_rule_zero action0 direction0) with
    | some (code, r) => if code ≠ -1 then some r else none
    | none => none)

/-- The rule `deny udp from any to any`. -/
def rule_deny_udp : sr_fw_rule_t :=
  { action := DENY, protocol := UDP, direction := BOTH, src_addr := 0, src_mask := 0,
    src_port := 0, dst_addr := 0, dst_mask := 0, dst_port := 0 }

/-- The connection entry of the flow `10.0.0.1:1000 -> 10.0.0.5:22` over TCP. -/
def conn_ssh (last_seen : Int) : sr_connection_t :=
  { protocol := TCP, src_addr := 0x0100000A, src_port := 1000, dst_addr := 0x0500000A,
    dst_port := 22, last_seen := last_seen }

/-! ## Basic facts -/

theorem sr_match_bothdir_iff (src srcport dst dstport src2 src2port dst2 dst2port : Nat) :
    sr_match_bothdir src srcport dst dstport src2 src2port dst2 dst2port = true ↔
      ((src = src2 ∧ srcport = src2port ∧ dst = dst2 ∧ dstport = dst2port)
        ∨ (src = dst2 ∧ srcport = dst2port ∧ dst = src2 ∧ dstport = src2port)) := by
  simp [sr_match_bothdir, and_assoc]

theorem same_flow_iff (c : sr_connection_t) (protocol ip_src ip_dst src_port dst_port : Nat) :
    same_flow c protocol ip_src ip_dst src_port dst_port ↔
      (c.protocol = protocol ∧ sr_match_bothdir ip_src src_port ip_dst dst_port
        c.src_addr c.src_port c.dst_addr c.dst_port = true) := by
  rw [sr_match_bothdir_iff]; rfl

theorem sr_fw_match_zero_or_one (rule : sr_fw_rule_t)
    (protocol ip_src ip_dst src_port dst_port : Nat) :
    sr_fw_match rule protocol ip_src ip_dst src_port dst_port = 0
      ∨ sr_fw_match rule protocol ip_src ip_dst src_port dst_port = 1 := by
  unfold sr_fw_match
  repeat' split
  all_goals simp

/-- The loop of the tracker answers 0 when no entry still to be scanned is both unexpired and
of the flow of the query. -/
theorem loop_no_live_match (H : Host) (now : Int) (protocol ip_src ip_dst src_port dst_port : Nat)
    (rest : List sr_connection_t) :
    ∀ before : List sr_connection_t,
    (∀ c ∈ rest, same_flow c protocol ip_src ip_dst src_port dst_port → expired H now c) →
    (sr_fw_match_connections_loop H now protocol ip_src ip_dst src_port dst_port
      before rest).1 = 0 := by
  induction rest with
  | nil => intro before _; simp [sr_fw_match_connections_loop]
  | cons conn next ih =>
    intro before h
    have hnext : ∀ c ∈ next,
        same_flow c protocol ip_src ip_dst src_port dst_port → expired H now c :=
      fun c hc => h c (List.mem_cons_of_mem _ hc)
    have hconn := h conn (List.mem_cons_self _ _)
    unfold sr_fw_match_connections_loop
    by_cases hexp : difftime now conn.last_seen > H.SR_FW_CONN_TIMEOUT
    · rw [if_pos hexp]
      cases before with
      | nil => rfl
      | cons p ps => exact ih (p :: ps) hnext
    · rw [if_neg hexp]
      have hno : ¬ (conn.protocol = protocol
          ∧ sr_match_bothdir ip_src src_port ip_dst dst_port
              conn.src_addr conn.src_port conn.dst_addr conn.dst_port = true) := by
        intro hm
        exact hexp (hconn ((same_flow_iff _ _ _ _ _ _).2 hm))
      rw [if_neg hno]
      exact ih (before ++ [conn]) hnext

/-- When the loop of the tracker answers 0, the list it leaves is a sublist of the list it
was given: entries are only removed. -/
theorem loop_zero_sublist (H : Host) (now : Int)
    (protocol ip_src ip_dst src_port dst_port : Nat) (rest : List sr_connection_t) :
    ∀ before : List sr_connection_t,
    (sr_fw_match_connections_loop H now protocol ip_src ip_dst src_port dst_port
      before rest).1 = 0 →
    List.Sublist (sr_fw_match_connections_loop H now protocol ip_src ip_dst src_port dst_port
      before rest).2 (before ++ rest) := by
  induction rest with
  | nil => intro before _; simp [sr_fw_match_connections_loop]
  | cons conn next ih =>
    intro before
    unfold sr_fw_match_connections_loop
    by_cases hexp : difftime now conn.last_seen > H.SR_FW_CONN_TIMEOUT
    · rw [if_pos hexp]
      cases before with
      | nil => intro _; simp
      | cons p ps =>
        intro h0
        exact (ih (p :: ps) h0).trans
          (List.Sublist.append_left (List.sublist_cons_self conn next) (p :: ps))
    · rw [if_neg hexp]
      by_cases hm : conn.protocol = protocol
          ∧ sr_match_bothdir ip_src src_port ip_dst dst_port
              conn.src_addr conn.src_port conn.dst_addr conn.dst_port = true
      · rw [if_pos hm]
        cases before <;> simp
      · rw [if_neg hm]
        intro h0
        have := ih (before ++ [conn]) h0
        simpa using this

/-- An unexpired entry of the flow at the head of the list is found at once: the answer is 1
and the entry stays at the head with `last_seen` set to the clock value. -/
theorem loop_head_match (H : Host) (now : Int) (protocol ip_src ip_dst src_port dst_port : Nat)
    (conn : sr_connection_t) (next : List sr_connection_t)
    (hlive : ¬ expired H now conn)
    (hflow : same_flow conn protocol ip_src ip_dst src_port dst_port) :
    sr_fw_match_connections_loop H now protocol ip_src ip_dst src_port dst_port
      [] (conn :: next) = (1, { conn with last_seen := now } :: next) := by
  have hm := (same_flow_iff _ _ _ _ _ _).1 hflow
  unfold sr_fw_match_connections_loop
  rw [if_neg (show ¬ difftime now conn.last_seen > H.SR_FW_CONN_TIMEOUT from hlive), if_pos hm]

/-- When the loop of the tracker answers 1, the list it leaves starts with an entry of the
flow of the query whose `last_seen` is the clock value. -/
theorem loop_one_head (H : Host) (now : Int) (protocol ip_src ip_dst src_port dst_port : Nat)
    (rest : List sr_connection_t) :
    ∀ before : List sr_connection_t,
    (sr_fw_match_connections_loop H now protocol ip_src ip_dst src_port dst_port
      before rest).1 = 1 →
    ∃ c tl, (sr_fw_match_connections_loop H now protocol ip_src ip_dst src_port dst_port
      before rest).2 = c :: tl ∧ c.last_seen = now
      ∧ same_flow c protocol ip_src ip_dst src_port dst_port := by
  induction rest with
  | nil => intro before h; simp [sr_fw_match_connections_loop] at h
  | cons conn next ih =>
    intro before
    unfold sr_fw_match_connections_loop
    by_cases hexp : difftime now conn.last_seen > H.SR_FW_CONN_TIMEOUT
    · rw [if_pos hexp]
      cases before with
      | nil => intro h; simp at h
      | cons p ps => exact ih (p :: ps)
    · rw [if_neg hexp]
      by_cases hm : conn.protocol = protocol
          ∧ sr_match_bothdir ip_src src_port ip_dst dst_port
              conn.src_addr conn.src_port conn.dst_addr conn.dst_port = true
      · rw [if_pos hm]
        have hf : same_flow { conn with last_seen := now } protocol ip_src ip_dst
            src_port dst_port := (same_flow_iff _ _ _ _ _ _).2 hm
        cases before with
        | nil => intro _; exact ⟨_, _, rfl, rfl, hf⟩
        | cons p ps => intro _; exact ⟨_, _, rfl, rfl, hf⟩
      · rw [if_neg hm]
        exact ih (before ++ [conn])

/-! ## Facts about `sr_fw_match_connections` -/

/-- The loop of the tracker answers 0 or 1. -/
theorem loop_zero_or_one (H : Host) (now : Int) (protocol ip_src ip_dst src_port dst_port : Nat)
    (rest : List sr_connection_t) :
    ∀ before : List sr_connection_t,
    (sr_fw_match_connections_loop H now protocol ip_src ip_dst src_port dst_port
      before rest).1 = 0 ∨
    (sr_fw_match_connections_loop H now protocol ip_src ip_dst src_port dst_port
      before rest).1 = 1 := by
  induction rest with
  | nil => intro before; left; simp [sr_fw_match_connections_loop]
  | cons c cs ih =>
    intro before
    unfold sr_fw_match_connections_loop
    split
    · cases before with
      | nil => left; rfl
      | cons p ps => exact ih (p :: ps)
    · split
      · cases before <;> (right; rfl)
      · exact ih (before ++ [c])

theorem sr_fw_match_connections_zero_or_one (H : Host) (fw : sr_fw) (now : Int)
    (protocol ip_src ip_dst src_port dst_port : Nat) :
    (sr_fw_match_connections H fw now protocol ip_src ip_dst src_port dst_port).1 = 0
      ∨ (sr_fw_match_connections H fw now protocol ip_src ip_dst src_port dst_port).1 = 1 := by
  unfold sr_fw_match_connections
  cases fw.connections with
  | nil => left; rfl
  | cons conn next =>
    exact loop_zero_or_one H now protocol ip_src ip_dst src_port dst_port (conn :: next) []

theorem sr_fw_match_connections_rules (H : Host) (fw : sr_fw) (now : Int)
    (protocol ip_src ip_dst src_port dst_port : Nat) :
    (sr_fw_match_connections H fw now protocol ip_src ip_dst src_port dst_port).2.rules
      = fw.rules := by
  unfold sr_fw_match_connections
  cases fw.connections <;> rfl

theorem sr_fw_match_connections_no_live_match (H : Host) (fw : sr_fw) (now : Int)
    (protocol ip_src ip_dst src_port dst_port : Nat)
    (h : ∀ c ∈ fw.connections,
      same_flow c protocol ip_src ip_dst src_port dst_port → expired H now c) :
    (sr_fw_match_connections H fw now protocol ip_src ip_dst src_port dst_port).1 = 0 := by
  unfold sr_fw_match_connections
  cases hc : fw.connections with
  | nil => rfl
  | cons conn next =>
    rw [hc] at h
    exact loop_no_live_match H now protocol ip_src ip_dst src_port dst_port _ [] h

theorem sr_fw_match_connections_zero_sublist (H : Host) (fw : sr_fw) (now : Int)
    (protocol ip_src ip_dst src_port dst_port : Nat)
    (h : (sr_fw_match_connections H fw now protocol ip_src ip_dst src_port dst_port).1 = 0) :
    List.Sublist
      (sr_fw_match_connections H fw now protocol ip_src ip_dst src_port dst_port).2.connections
      fw.connections := by
  unfold sr_fw_match_connections at h ⊢
  cases hc : fw.connections with
  | nil => rw [hc] at h; simp [hc]
  | cons conn next =>
    rw [hc] at h
    simpa using loop_zero_sublist H now protocol ip_src ip_dst src_port dst_port _ [] h

theorem sr_fw_match_connections_one_head (H : Host) (fw : sr_fw) (now : Int)
    (protocol ip_src ip_dst src_port dst_port : Nat)
    (h : (sr_fw_match_connections H fw now protocol ip_src ip_dst src_port dst_port).1 = 1) :
    ∃ c tl,
      (sr_fw_match_connections H fw now protocol ip_src ip_dst src_port dst_port).2.connections
        = c :: tl
      ∧ c.last_seen = now ∧ same_flow c protocol ip_src ip_dst src_port dst_port := by
  unfold sr_fw_match_connections at h ⊢
  cases hc : fw.connections with
  | nil => rw [hc] at h; simp at h
  | cons conn next =>
    rw [hc] at h
    exact loop_one_head H now protocol ip_src ip_dst src_port dst_port _ [] h

theorem sr_fw_match_connections_head_match (H : Host) (fw : sr_fw) (now : Int)
    (protocol ip_src ip_dst src_port dst_port : Nat)
    (conn : sr_connection_t) (next : List sr_connection_t)
    (hc : fw.connections = conn :: next) (hlive : ¬ expired H now conn)
    (hflow : same_flow conn protocol ip_src ip_dst src_port dst_port) :
    (sr_fw_match_connections H fw now protocol ip_src ip_dst src_port dst_port).1 = 1 := by
  unfold sr_fw_match_connections
  rw [hc]
  simp only [loop_head_match H now protocol ip_src ip_dst src_port dst_port conn next hlive hflow]

theorem same_flow_swap (c : sr_connection_t) (protocol ip_src ip_dst src_port dst_port : Nat)
    (h : same_flow c protocol ip_src ip_dst src_port dst_port) :
    same_flow c protocol ip_dst ip_src dst_port src_port := by
  obtain ⟨hp, h | h⟩ := h
  · exact ⟨hp, Or.inr ⟨h.2.2.1, h.2.2.2, h.1, h.2.1⟩⟩
  · exact ⟨hp, Or.inl ⟨h.2.2.1, h.2.2.2, h.1, h.2.1⟩⟩

/-! ## Facts about the rule loop and `sr_fw_inspect` -/

theorem sr_fw_match_eq_one_iff (rule : sr_fw_rule_t)
    (protocol ip_src ip_dst src_port dst_port : Nat) :
    sr_fw_match rule protocol ip_src ip_dst src_port dst_port = 1 ↔
      (rule.protocol = protocol
        ∧ sr_match_netblock ip_src rule.src_addr rule.src_mask = true
        ∧ sr_match_netblock ip_dst rule.dst_addr rule.dst_mask = true
        ∧ (rule.src_port = 0 ∨ rule.src_port = src_port)
        ∧ (rule.dst_port = 0 ∨ rule.dst_port = dst_port)) := by
  unfold sr_fw_match
  by_cases h1 : rule.protocol = protocol
  · by_cases h2 : sr_match_netblock ip_src rule.src_addr rule.src_mask = true
    · by_cases h3 : sr_match_netblock ip_dst rule.dst_addr rule.dst_mask = true
      · by_cases h4 : rule.src_port = 0 ∨ rule.src_port = src_port
        · by_cases h5 : rule.dst_port = 0 ∨ rule.dst_port = dst_port
          · have h4n : ¬ (rule.src_port ≠ 0 ∧ rule.src_port ≠ src_port) := by tauto
            have h5n : ¬ (rule.dst_port ≠ 0 ∧ rule.dst_port ≠ dst_port) := by tauto
            simp [h1, h2, h3, h4, h5, h4n, h5n]
          · have h4n : ¬ (rule.src_port ≠ 0 ∧ rule.src_port ≠ src_port) := by tauto
            have h5n : rule.dst_port ≠ 0 ∧ rule.dst_port ≠ dst_port := by tauto
            simp [h1, h2, h3, h4, h5, h4n, h5n]
        · have h4n : rule.src_port ≠ 0 ∧ rule.src_port ≠ src_port := by tauto
          simp [h1, h2, h3, h4, h4n]
      · simp [h1, h2, h3]
    · simp [h1, h2]
  · simp [h1]

theorem sr_fw_inspect_rules_first (fw : sr_fw) (now : Int)
    (protocol ip_src ip_dst src_port dst_port : Nat)
    (pre : List sr_fw_rule_t) (r : sr_fw_rule_t) (post : List sr_fw_rule_t)
    (hpre : ∀ q ∈ pre, sr_fw_match q protocol ip_src ip_dst src_port dst_port = 0)
    (hr : sr_fw_match r protocol ip_src ip_dst src_port dst_port = 1) :
    sr_fw_inspect_rules fw now protocol ip_src ip_dst src_port dst_port (pre ++ r :: post)
      = (r.action,
          if r.action = ALLOW then
            sr_fw_add_connection fw now protocol ip_src ip_dst src_port dst_port
          else fw) := by
  induction pre with
  | nil => simp [sr_fw_inspect_rules, hr]
  | cons q qs ih =>
    have hq := hpre q (List.mem_cons_self _ _)
    have hqs : ∀ x ∈ qs, sr_fw_match x protocol ip_src ip_dst src_port dst_port = 0 :=
      fun x hx => hpre x (List.mem_cons_of_mem _ hx)
    simp only [List.cons_append, sr_fw_inspect_rules, hq, ne_eq, not_true_eq_false, if_false]
    exact ih hqs

theorem sr_fw_inspect_rules_none (fw : sr_fw) (now : Int)
    (protocol ip_src ip_dst src_port dst_port : Nat) (rules : List sr_fw_rule_t)
    (h : ∀ q ∈ rules, sr_fw_match q protocol ip_src ip_dst src_port dst_port = 0) :
    sr_fw_inspect_rules fw now protocol ip_src ip_dst src_port dst_port rules = (ALLOW, fw) := by
  induction rules with
  | nil => rfl
  | cons q qs ih =>
    have hq := h q (List.mem_cons_self _ _)
    simp only [sr_fw_inspect_rules, hq, ne_eq, not_true_eq_false, if_false]
    exact ih (fun x hx => h x (List.mem_cons_of_mem _ hx))

theorem sr_fw_inspect_rules_verdict (fw : sr_fw) (now : Int)
    (protocol ip_src ip_dst src_port dst_port : Nat) (rules : List sr_fw_rule_t) :
    (sr_fw_inspect_rules fw now protocol ip_src ip_dst src_port dst_port rules).1
      = first_match_verdict rules protocol ip_src ip_dst src_port dst_port := by
  induction rules with
  | nil => rfl
  | cons q qs ih =>
    rcases sr_fw_match_zero_or_one q protocol ip_src ip_dst src_port dst_port with hq | hq
    · simp only [sr_fw_inspect_rules, hq, ne_eq, not_true_eq_false, if_false]
      rw [ih]
      simp [first_match_verdict, List.find?, hq]
    · simp [sr_fw_inspect_rules, first_match_verdict, List.find?, hq]

/-- Splitting a rule list at its first matching rule. -/
theorem exists_first_match (protocol ip_src ip_dst src_port dst_port : Nat)
    (rules : List sr_fw_rule_t)
    (h : ∃ r ∈ rules, sr_fw_match r protocol ip_src ip_dst src_port dst_port = 1) :
    ∃ pre r post, rules = pre ++ r :: post
      ∧ (∀ q ∈ pre, sr_fw_match q protocol ip_src ip_dst src_port dst_port = 0)
      ∧ sr_fw_match r protocol ip_src ip_dst src_port dst_port = 1 := by
  induction rules with
  | nil => obtain ⟨r, hr, _⟩ := h; simp at hr
  | cons q qs ih =>
    rcases sr_fw_match_zero_or_one q protocol ip_src ip_dst src_port dst_port with hq | hq
    · have : ∃ r ∈ qs, sr_fw_match r protocol ip_src ip_dst src_port dst_port = 1 := by
        obtain ⟨r, hr, hm⟩ := h
        rcases List.mem_cons.1 hr with rfl | hr
        · rw [hq] at hm; simp at hm
        · exact ⟨r, hr, hm⟩
      obtain ⟨pre, r, post, he, hpre, hr⟩ := ih this
      refine ⟨q :: pre, r, post, by simp [he], ?_, hr⟩
      intro x hx
      rcases List.mem_cons.1 hx with rfl | hx
      · exact hq
      · exact hpre x hx
    · exact ⟨[], q, qs, rfl, by simp, hq⟩

/-- The body of `sr_fw_inspect` after a successful port extraction on a packet that is not
ICMP. -/
theorem sr_fw_inspect_of_ports (H : Host) (fw : sr_fw) (now : Int) (packet : Packet) (len : Nat)
    (u1 u2 sp dp : Nat) (hicmp : packet.ip_p ≠ ICMP)
    (hports : sr_get_ports H packet len u1 u2 = (1, sp, dp)) :
    sr_fw_inspect H fw now packet len u1 u2 =
      if (sr_fw_match_connections H fw now packet.ip_p packet.ip_src packet.ip_dst sp dp).1 ≠ 0
      then (ALLOW,
        (sr_fw_match_connections H fw now packet.ip_p packet.ip_src packet.ip_dst sp dp).2)
      else sr_fw_inspect_rules
        (sr_fw_match_connections H fw now packet.ip_p packet.ip_src packet.ip_dst sp dp).2
        now packet.ip_p packet.ip_src packet.ip_dst sp dp
        (sr_fw_match_connections H fw now packet.ip_p packet.ip_src packet.ip_dst sp dp).2.rules
    := by
  unfold sr_fw_inspect
  simp [hicmp, hports]

/-- A packet of the flow of an unexpired entry at the head of the connection table is
allowed. -/
theorem sr_fw_inspect_head_entry (H : Host) (fw : sr_fw) (now : Int) (packet : Packet)
    (len : Nat) (u1 u2 sp dp : Nat) (conn : sr_connection_t) (next : List sr_connection_t)
    (hicmp : packet.ip_p ≠ ICMP)
    (hports : sr_get_ports H packet len u1 u2 = (1, sp, dp))
    (hc : fw.connections = conn :: next) (hlive : ¬ expired H now conn)
    (hflow : same_flow conn packet.ip_p packet.ip_src packet.ip_dst sp dp) :
    (sr_fw_inspect H fw now packet len u1 u2).1 = ALLOW := by
  rw [sr_fw_inspect_of_ports H fw now packet len u1 u2 sp dp hicmp hports]
  have h1 := sr_fw_match_connections_head_match H fw now packet.ip_p packet.ip_src
    packet.ip_dst sp dp conn next hc hlive hflow
  simp [h1]

/-! ## C1: the first matching rule decides -/

/-- C1 (as amended): for every rule table, connection table, time and packet that is not ICMP,
whose port extraction succeeds and which is of the flow of no unexpired connection,
`sr_fw_inspect` returns the action of the first rule in table order that `sr_fw_match`
accepts, whatever rules follow it; and `sr_fw_match` accepts a rule exactly when the protocols
are equal, both addresses fall in the rule's netblocks and each rule port is 0 or equals the
packet port. -/
theorem C1_first_matching_rule_decides (H : Host) (fw : sr_fw) (now : Int) (packet : Packet)
    (len u1 u2 sp dp : Nat) (pre : List sr_fw_rule_t) (r : sr_fw_rule_t)
    (post : List sr_fw_rule_t)
    (hicmp : packet.ip_p ≠ ICMP)
    (hports : sr_get_ports H packet len u1 u2 = (1, sp, dp))
    (hconn : ∀ c ∈ fw.connections,
      same_flow c packet.ip_p packet.ip_src packet.ip_dst sp dp → expired H now c)
    (hrules : fw.rules = pre ++ r :: post)
    (hpre : ∀ q ∈ pre, sr_fw_match q packet.ip_p packet.ip_src packet.ip_dst sp dp = 0)
    (hr : sr_fw_match r packet.ip_p packet.ip_src packet.ip_dst sp dp = 1) :
    (sr_fw_inspect H fw now packet len u1 u2).1 = r.action
      ∧ ∀ q : sr_fw_rule_t,
          sr_fw_match q packet.ip_p packet.ip_src packet.ip_dst sp dp = 1 ↔
            (q.protocol = packet.ip_p
              ∧ sr_match_netblock packet.ip_src q.src_addr q.src_mask = true
              ∧ sr_match_netblock packet.ip_dst q.dst_addr q.dst_mask = true
              ∧ (q.src_port = 0 ∨ q.src_port = sp)
              ∧ (q.dst_port = 0 ∨ q.dst_port = dp)) := by
  refine ⟨?_, fun q => sr_fw_match_eq_one_iff q _ _ _ _ _⟩
  rw [sr_fw_inspect_of_ports H fw now packet len u1 u2 sp dp hicmp hports]
  have h0 := sr_fw_match_connections_no_live_match H fw now packet.ip_p packet.ip_src
    packet.ip_dst sp dp hconn
  rw [h0, sr_fw_match_connections_rules, hrules]
  simp only [ne_eq, not_true_eq_false, if_false]
  rw [sr_fw_inspect_rules_first _ now _ _ _ _ _ pre r post hpre hr]

/-- C1, worked instance: with the rules `deny tcp from any to 10.0.0.5/32 22` and then
`allow tcp from any to any`, a TCP segment to `10.0.0.5:22` is denied. -/
theorem C1_first_matching_rule_decides_witness :
    sr_get_ports example_host packet_ssh 54 0 0 = (1, 1000, 22)
      ∧ sr_fw_match rule_deny_ssh TCP 0x0100000A 0x0500000A 1000 22 = 1
      ∧ sr_fw_match rule_allow_tcp TCP 0x0100000A 0x0500000A 1000 22 = 1
      ∧ (sr_fw_inspect example_host
          { rules := [rule_deny_ssh, rule_allow_tcp], connections := [] }
          100 packet_ssh 54 0 0).1 = DENY :=
  ⟨by decide, by decide, by decide,
    (C1_first_matching_rule_decides example_host
      { rules := [rule_deny_ssh, rule_allow_tcp], connections := [] } 100 packet_ssh 54 0 0
      1000 22 [] rule_deny_ssh [rule_allow_tcp] (by decide) (by decide)
      (by intro c hc; cases hc) rfl (by intro q hq; cases hq) (by decide)).1⟩

/-- C1 as stated fails on ICMP: port extraction succeeds on an ICMP packet, the connection
table is empty and the rule `deny icmp from any to any` is the first rule that `sr_fw_match`
accepts, yet `sr_fw_inspect` returns `ALLOW`, not the action of that rule. -/
theorem C1_counterexample_icmp :
    sr_get_ports example_host packet_icmp 34 0 0 = (1, 0, 0)
      ∧ sr_fw_match rule_deny_icmp packet_icmp.ip_p packet_icmp.ip_src packet_icmp.ip_dst 0 0
          = 1
      ∧ (sr_fw_inspect example_host { rules := [rule_deny_icmp], connections := [] }
          100 packet_icmp 34 0 0).1 ≠ rule_deny_icmp.action := by
  decide

/-! ## C2: replies of a tracked flow -/

/-- When a rule matches and the verdict of the rule loop is `ALLOW`, the flow is recorded at
the head of the connection table with `last_seen` equal to the clock value. -/
theorem sr_fw_inspect_rules_allow_tracked (fw : sr_fw) (now : Int)
    (protocol ip_src ip_dst src_port dst_port : Nat) (rules : List sr_fw_rule_t)
    (hex : ∃ r ∈ rules, sr_fw_match r protocol ip_src ip_dst src_port dst_port = 1)
    (hallow : (sr_fw_inspect_rules fw now protocol ip_src ip_dst src_port dst_port rules).1
      = ALLOW) :
    (sr_fw_inspect_rules fw now protocol ip_src ip_dst src_port dst_port rules).2
      = sr_fw_add_connection fw now protocol ip_src ip_dst src_port dst_port := by
  obtain ⟨pre, r, post, he, hpre, hr⟩ :=
    exists_first_match protocol ip_src ip_dst src_port dst_port rules hex
  subst he
  rw [sr_fw_inspect_rules_first fw now _ _ _ _ _ pre r post hpre hr] at hallow ⊢
  simp only at hallow
  simp [hallow]

/-- C2 (as amended): if `sr_fw_inspect` returns `ALLOW` at time `t` for a well-formed TCP or UDP
packet `A:pa -> B:pb` because the packet matched a tracked connection or because a rule of the
table matches it (that is, not by the default verdict for a packet that no rule matches, which
records no connection), then `sr_fw_inspect` applied to the resulting state at any time `t'`
with `t <= t'` and `t' - t <= SR_FW_CONN_TIMEOUT` to a well-formed packet of the same protocol
`B:pb -> A:pa` returns `ALLOW`, whatever the rule table says about `B -> A`. -/
theorem C2_reply_of_tracked_flow_allowed (H : Host) (fw : sr_fw) (t t' : Int)
    (packet reply : Packet) (len len' u1 u2 v1 v2 pa pb : Nat)
    (hproto : packet.ip_p = TCP ∨ packet.ip_p = UDP)
    (hports : sr_get_ports H packet len u1 u2 = (1, pa, pb))
    (hrproto : reply.ip_p = packet.ip_p)
    (hrsrc : reply.ip_src = packet.ip_dst)
    (hrdst : reply.ip_dst = packet.ip_src)
    (hrports : sr_get_ports H reply len' v1 v2 = (1, pb, pa))
    (hallow : (sr_fw_inspect H fw t packet len u1 u2).1 = ALLOW)
    (htracked :
      (sr_fw_match_connections H fw t packet.ip_p packet.ip_src packet.ip_dst pa pb).1 = 1
        ∨ ∃ r ∈ fw.rules, sr_fw_match r packet.ip_p packet.ip_src packet.ip_dst pa pb = 1)
    (_ht : t ≤ t') (hwin : t' - t ≤ H.SR_FW_CONN_TIMEOUT) :
    (sr_fw_inspect H (sr_fw_inspect H fw t packet len u1 u2).2 t' reply len' v1 v2).1
      = ALLOW := by
  have hicmp : packet.ip_p ≠ ICMP := by
    rcases hproto with h | h <;> rw [h] <;> decide
  have hricmp : reply.ip_p ≠ ICMP := by rw [hrproto]; exact hicmp
  -- the state after the first call has an entry of the flow at its head, seen at `t`
  have hhead : ∃ c tl, (sr_fw_inspect H fw t packet len u1 u2).2.connections = c :: tl
      ∧ c.last_seen = t ∧ same_flow c packet.ip_p packet.ip_src packet.ip_dst pa pb := by
    rw [sr_fw_inspect_of_ports H fw t packet len u1 u2 pa pb hicmp hports] at hallow ⊢
    by_cases hm : (sr_fw_match_connections H fw t packet.ip_p packet.ip_src packet.ip_dst
        pa pb).1 = 1
    · rw [hm]
      simp only [ne_eq, one_ne_zero, not_false_eq_true, if_true]
      exact sr_fw_match_connections_one_head H fw t _ _ _ _ _ hm
    · have hex : ∃ r ∈ fw.rules,
          sr_fw_match r packet.ip_p packet.ip_src packet.ip_dst pa pb = 1 := by
        rcases htracked with h | h
        · exact absurd h hm
        · exact h
      by_cases hz : (sr_fw_match_connections H fw t packet.ip_p packet.ip_src packet.ip_dst
          pa pb).1 = 0
      · rw [hz] at hallow ⊢
        simp only [ne_eq, not_true_eq_false, if_false] at hallow ⊢
        rw [sr_fw_match_connections_rules] at hallow ⊢
        rw [sr_fw_inspect_rules_allow_tracked _ t _ _ _ _ _ fw.rules hex hallow]
        exact ⟨_, _, rfl, rfl, rfl, Or.inl ⟨rfl, rfl, rfl, rfl⟩⟩
      · rcases sr_fw_match_connections_zero_or_one H fw t packet.ip_p packet.ip_src
          packet.ip_dst pa pb with h | h
        · exact absurd h hz
        · exact absurd h hm
  obtain ⟨c, tl, hc, hseen, hflow⟩ := hhead
  have hlive : ¬ expired H t' c := by
    unfold expired
    rw [hseen]
    exact not_lt.mpr hwin
  have hflow' : same_flow c reply.ip_p reply.ip_src reply.ip_dst pb pa := by
    rw [hrproto, hrsrc, hrdst]
    exact same_flow_swap c _ _ _ _ _ hflow
  exact sr_fw_inspect_head_entry H _ t' reply len' v1 v2 pb pa c tl hricmp hrports hc hlive
    hflow'

/-- C2, worked instance: the rule `allow tcp from any to any` allows `10.0.0.1:1000 ->
10.0.0.5:80` at time 100; the reply at time 160 is allowed although the first rule of the table
is `deny tcp from 10.0.0.5/32 to 10.0.0.1/32`, which matches the reply. -/
theorem C2_reply_of_tracked_flow_allowed_witness :
    (sr_fw_inspect example_host
        { rules := [rule_deny_reply, rule_allow_tcp], connections := [] }
        100 packet_request 54 0 0).1 = ALLOW
      ∧ sr_fw_match rule_deny_reply TCP 0x0500000A 0x0100000A 80 1000 = 1
      ∧ (sr_fw_inspect example_host
          (sr_fw_inspect example_host
            { rules := [rule_deny_reply, rule_allow_tcp], connections := [] }
            100 packet_request 54 0 0).2
          160 packet_reply 54 0 0).1 = ALLOW :=
  ⟨by decide, by decide,
    C2_reply_of_tracked_flow_allowed example_host
      { rules := [rule_deny_reply, rule_allow_tcp], connections := [] } 100 160
      packet_request packet_reply 54 54 0 0 0 0 1000 80 (Or.inl rfl) (by decide) rfl rfl rfl
      (by decide) (by decide) (Or.inr ⟨rule_allow_tcp, by decide, by decide⟩) (by decide)
      (by decide)⟩

/-- C2 as stated fails for the default verdict: with the single rule
`deny tcp from 10.0.0.5/32 to 10.0.0.1/32` and no connection, the TCP segment
`10.0.0.1:1000 -> 10.0.0.5:80` matches no rule and is allowed without being recorded, and the
reply `10.0.0.5:80 -> 10.0.0.1:1000` at the same time is denied by the rule. -/
theorem C2_counterexample_default_allow :
    sr_get_ports example_host packet_request 54 0 0 = (1, 1000, 80)
      ∧ sr_get_ports example_host packet_reply 54 0 0 = (1, 80, 1000)
      ∧ sr_fw_inspect example_host { rules := [rule_deny_reply], connections := [] }
          100 packet_request 54 0 0
          = (ALLOW, { rules := [rule_deny_reply], connections := [] })
      ∧ (sr_fw_inspect example_host
          (sr_fw_inspect example_host { rules := [rule_deny_reply], connections := [] }
            100 packet_request 54 0 0).2
          100 packet_reply 54 0 0).1 = DENY := by
  decide

/-! ## C3: netblocks -/

/-- Masking a 32-bit value with the mask of `parse_ip_block` for the shift count `k` clears
its `k` least significant bits. -/
theorem land_cidr_mask (x k : Nat) (hx : x < 2 ^ 32) :
    x &&& (((0xFFFFFFFF >>> k) <<< k) % 2 ^ 32) = (x / 2 ^ k) * 2 ^ k := by
  have hx' : ∀ i, 32 ≤ i → x.testBit i = false := by
    intro i hi
    exact Nat.testBit_lt_two_pow (lt_of_lt_of_le hx (Nat.pow_le_pow_right (by decide) hi))
  have hff : (0xFFFFFFFF : Nat) = 2 ^ 32 - 1 := by decide
  rw [← Nat.shiftRight_eq_div_pow, ← Nat.shiftLeft_eq]
  apply Nat.eq_of_testBit_eq
  intro i
  rw [Nat.testBit_and, Nat.testBit_mod_two_pow, Nat.testBit_shiftLeft, Nat.testBit_shiftLeft,
    Nat.testBit_shiftRight, Nat.testBit_shiftRight, hff, Nat.testBit_two_pow_sub_one]
  by_cases hik : k ≤ i
  · have e : k + (i - k) = i := by omega
    rw [e]
    by_cases hi : i < 32
    · simp [hik, hi]
    · rw [hx' i (by omega)]
      simp
  · simp [hik]

/-- On a big-endian machine the mask that `parse_ip_block` stores for a length `c` from 1 to
32 makes `sr_match_netblock` compare exactly the `c` most significant bits of two 32-bit
addresses. The length 0 is left out: its mask is what the machine stores for a shift by the
width of the operand. -/
theorem sr_match_netblock_big_endian (H : Host) (hbe : H.little_endian = false)
    (c h net : Nat) (hc : 1 ≤ c) (hh : h < 2 ^ 32) (hn : net < 2 ^ 32) :
    sr_match_netblock h net
        (if 32 - c < 32 then ((0xFFFFFFFF >>> (32 - c)) <<< (32 - c)) % 2 ^ 32
          else H.shift_by_width % 2 ^ 32) = true
      ↔ top_bits H c h = top_bits H c net := by
  rw [if_pos (by omega)]
  unfold sr_match_netblock top_bits ntohl
  rw [decide_eq_true_iff, land_cidr_mask h _ hh, land_cidr_mask net _ hn,
    hbe]
  simp only [Bool.false_eq_true, if_false, Nat.mod_eq_of_lt hh, Nat.mod_eq_of_lt hn]
  constructor
  · intro e
    exact (Nat.eq_of_mul_eq_mul_right (Nat.pos_pow_of_pos _ (by decide)) e).symm
  · intro e
    rw [e]

/-- C3, evaluation at the failing input: on the little-endian example machine the token
`10.0.0.0/24` yields the address `0x0000000A` (network order) and the mask `0xFFFFFF00` (host
order). The host `10.0.0.7` has the same 24 most significant bits as `10.0.0.0` and does not
match; the host `99.0.0.0` differs from `10.0.0.0` in these bits and matches. -/
theorem C3_little_endian_mask_mismatch :
    parse_ip_block example_host "10.0.0.0/24".toList 0 0 = (1, 0x0000000A, 0xFFFFFF00)
      ∧ example_host.inet_aton "10.0.0.7".toList = some 0x0700000A
      ∧ top_bits example_host 24 0x0700000A = top_bits example_host 24 0x0000000A
      ∧ sr_match_netblock 0x0700000A 0x0000000A 0xFFFFFF00 = false
      ∧ example_host.inet_aton "99.0.0.0".toList = some 0x00000063
      ∧ top_bits example_host 24 0x00000063 ≠ top_bits example_host 24 0x0000000A
      ∧ sr_match_netblock 0x00000063 0x0000000A 0xFFFFFF00 = true := by
  decide

/-! ## C4: ICMP -/

/-- C4: for every firewall state, every time and every packet whose IP protocol field is ICMP,
`sr_fw_inspect` returns `ALLOW` and the state after the call is the state before it: the rule
table and the connection table are unchanged. -/
theorem C4_icmp_always_allowed (H : Host) (fw : sr_fw) (now : Int) (packet : Packet)
    (len u1 u2 : Nat) (hicmp : packet.ip_p = ICMP) :
    sr_fw_inspect H fw now packet len u1 u2 = (ALLOW, fw) := by
  unfold sr_fw_inspect
  rw [if_pos hicmp]

/-- C4, worked instance: an ICMP packet is allowed under the rule `deny icmp from any to any`,
and an expired connection entry stays in the table. -/
theorem C4_icmp_always_allowed_witness :
    sr_fw_match rule_deny_icmp ICMP 0x0100000A 0x0500000A 0 0 = 1
      ∧ sr_fw_inspect example_host
          { rules := [rule_deny_icmp], connections := [conn_request 0] } 1000 packet_icmp 34 0 0
        = (ALLOW, { rules := [rule_deny_icmp], connections := [conn_request 0] }) :=
  ⟨by decide,
    C4_icmp_always_allowed example_host
      { rules := [rule_deny_icmp], connections := [conn_request 0] } 1000 packet_icmp 34 0 0
      rfl⟩

/-! ## C5: malformed transport headers -/

/-- C5: for every firewall state and every packet that is UDP with a checksum value over its
UDP header other than `0xFFFF`, or TCP with a total length below the sum of the sizes of the
Ethernet, IP and TCP headers, `sr_fw_inspect` returns `DENY` and leaves the state, hence the
connection table, unchanged, whatever rules and connections the state holds. -/
theorem C5_malformed_transport_denied (H : Host) (fw : sr_fw) (now : Int) (packet : Packet)
    (len u1 u2 : Nat)
    (h : (packet.ip_p = UDP ∧ packet.udp_cksum ≠ 0xFFFF)
      ∨ (packet.ip_p = TCP
          ∧ len < H.sizeof_sr_ethernet_hdr_t + H.sizeof_sr_ip_hdr_t + H.sizeof_sr_tcp_hdr_t)) :
    sr_fw_inspect H fw now packet len u1 u2 = (DENY, fw) := by
  unfold sr_fw_inspect sr_get_ports
  rcases h with ⟨hp, hck⟩ | ⟨hp, hlen⟩
  · have h1 : ¬ (UDP = ICMP) := by decide
    have h2 : ¬ (UDP = TCP) := by decide
    simp [hp, h1, h2, hck]
  · have h1 : ¬ (TCP = ICMP) := by decide
    have hlen' : len < H.sizeof_sr_tcp_hdr_t + H.sizeof_sr_ip_hdr_t
        + H.sizeof_sr_ethernet_hdr_t := by omega
    simp [hp, h1, hlen']

/-- C5, worked instance: a UDP datagram with checksum value `0x1234` is denied although the
rule `allow udp from any to any` matches it and an unexpired connection of its flow is
tracked; a TCP segment of total length 40 is denied although `allow tcp from any to any`
matches it. Both leave the state unchanged. -/
theorem C5_malformed_transport_denied_witness :
    sr_fw_match rule_allow_udp UDP 0x0100000A 0x0500000A 1000 80 = 1
      ∧ same_flow (conn_udp 100) UDP 0x0100000A 0x0500000A 1000 80
      ∧ ¬ expired example_host 100 (conn_udp 100)
      ∧ sr_fw_inspect example_host
          { rules := [rule_allow_udp], connections := [conn_udp 100] } 100 packet_udp_bad 42 0 0
        = (DENY, { rules := [rule_allow_udp], connections := [conn_udp 100] })
      ∧ sr_fw_inspect example_host
          { rules := [rule_allow_tcp], connections := [conn_request 100] } 100 packet_request
          40 0 0
        = (DENY, { rules := [rule_allow_tcp], connections := [conn_request 100] }) :=
  ⟨by decide, by decide, by decide,
    C5_malformed_transport_denied example_host
      { rules := [rule_allow_udp], connections := [conn_udp 100] } 100 packet_udp_bad 42 0 0
      (Or.inl ⟨rfl, by decide⟩),
    C5_malformed_transport_denied example_host
      { rules := [rule_allow_tcp], connections := [conn_request 100] } 100 packet_request
      40 0 0 (Or.inr ⟨rfl, by decide⟩)⟩

/-! ## C6: protocols other than ICMP, TCP and UDP -/

/-- On a packet whose protocol is none of ICMP, TCP, UDP, `sr_get_ports` returns 1 and leaves
both port locations as they were. -/
theorem sr_get_ports_unknown_protocol (H : Host) (packet : Packet) (len u1 u2 : Nat)
    (h1 : packet.ip_p ≠ ICMP) (h2 : packet.ip_p ≠ TCP) (h3 : packet.ip_p ≠ UDP) :
    sr_get_ports H packet len u1 u2 = (1, u1, u2) := by
  unfold sr_get_ports
  rw [if_neg h1, if_neg h2, if_neg h3]

/-- C6, evaluation at the failing input: on a packet of IP protocol 47 `sr_get_ports` returns 1
and leaves both port locations as they were (here 7 and 9), and `sr_fw_inspect` on the
firewall state with no rule and no connection returns `ALLOW`, not `DENY`. -/
theorem C6_unknown_protocol_not_denied :
    packet_gre.ip_p ≠ ICMP ∧ packet_gre.ip_p ≠ TCP ∧ packet_gre.ip_p ≠ UDP
      ∧ sr_get_ports example_host packet_gre 34 7 9 = (1, 7, 9)
      ∧ sr_fw_inspect example_host { rules := [], connections := [] } 100 packet_gre 34 7 9
        = (ALLOW, { rules := [], connections := [] }) := by
  decide

/-! ## C7: the default verdict -/

/-- C7: for every firewall state and every packet that is not ICMP, whose port extraction
succeeds, which is of the flow of no unexpired connection and which no rule of the table
matches, `sr_fw_inspect` returns `ALLOW`, keeps the rule table, and inserts no connection:
the connection table after the call is a sublist of the table before it, so every entry
after the call was there before. -/
theorem C7_default_allow_inserts_nothing (H : Host) (fw : sr_fw) (now : Int) (packet : Packet)
    (len u1 u2 sp dp : Nat)
    (hicmp : packet.ip_p ≠ ICMP)
    (hports : sr_get_ports H packet len u1 u2 = (1, sp, dp))
    (hconn : ∀ c ∈ fw.connections,
      same_flow c packet.ip_p packet.ip_src packet.ip_dst sp dp → expired H now c)
    (hrules : ∀ q ∈ fw.rules,
      sr_fw_match q packet.ip_p packet.ip_src packet.ip_dst sp dp = 0) :
    (sr_fw_inspect H fw now packet len u1 u2).1 = ALLOW
      ∧ (sr_fw_inspect H fw now packet len u1 u2).2.rules = fw.rules
      ∧ List.Sublist (sr_fw_inspect H fw now packet len u1 u2).2.connections fw.connections
      ∧ ∀ c ∈ (sr_fw_inspect H fw now packet len u1 u2).2.connections, c ∈ fw.connections := by
  have h0 := sr_fw_match_connections_no_live_match H fw now packet.ip_p packet.ip_src
    packet.ip_dst sp dp hconn
  have hsub := sr_fw_match_connections_zero_sublist H fw now packet.ip_p packet.ip_src
    packet.ip_dst sp dp h0
  have heq : sr_fw_inspect H fw now packet len u1 u2
      = (ALLOW, (sr_fw_match_connections H fw now packet.ip_p packet.ip_src packet.ip_dst
          sp dp).2) := by
    rw [sr_fw_inspect_of_ports H fw now packet len u1 u2 sp dp hicmp hports, h0]
    simp only [ne_eq, not_true_eq_false, if_false]
    rw [sr_fw_match_connections_rules]
    exact sr_fw_inspect_rules_none _ now _ _ _ _ _ fw.rules hrules
  rw [heq]
  exact ⟨rfl, sr_fw_match_connections_rules H fw now _ _ _ _ _, hsub, fun c hc => hsub.subset hc⟩

/-- C7, worked instance: with no rule and no connection a TCP segment is allowed and the
connection table stays empty; with the rule `deny icmp from any to any` and an expired entry of
another flow, the segment is allowed and nothing is inserted. -/
theorem C7_default_allow_inserts_nothing_witness :
    sr_fw_inspect example_host { rules := [], connections := [] } 100 packet_request 54 0 0
        = (ALLOW, { rules := [], connections := [] })
      ∧ (sr_fw_inspect example_host
          { rules := [rule_deny_icmp], connections := [conn_other 0] }
          1000 packet_request 54 0 0).1 = ALLOW
      ∧ ∀ c ∈ (sr_fw_inspect example_host
          { rules := [rule_deny_icmp], connections := [conn_other 0] }
          1000 packet_request 54 0 0).2.connections, c ∈ [conn_other 0] :=
  ⟨by decide,
    (C7_default_allow_inserts_nothing example_host
      { rules := [rule_deny_icmp], connections := [conn_other 0] } 1000 packet_request 54 0 0
      1000 80 (by decide) (by decide) (by decide) (by decide)).1,
    (C7_default_allow_inserts_nothing example_host
      { rules := [rule_deny_icmp], connections := [conn_other 0] } 1000 packet_request 54 0 0
      1000 80 (by decide) (by decide) (by decide) (by decide)).2.2.2⟩

/-! ## C8: eviction by a lookup without match -/

/-- When the head of the connection table is expired, `sr_fw_match_connections` unlinks it,
returns 0 and leaves every other entry in place, unvisited. -/
theorem sr_fw_match_connections_head_expired (H : Host) (fw : sr_fw) (now : Int)
    (protocol ip_src ip_dst src_port dst_port : Nat)
    (conn : sr_connection_t) (next : List sr_connection_t)
    (hc : fw.connections = conn :: next) (hexp : expired H now conn) :
    sr_fw_match_connections H fw now protocol ip_src ip_dst src_port dst_port
      = (0, { fw with connections := next }) := by
  unfold sr_fw_match_connections
  rw [hc]
  simp only [sr_fw_match_connections_loop]
  rw [if_pos (show difftime now conn.last_seen > H.SR_FW_CONN_TIMEOUT from hexp)]

/-- C8, evaluation at the failing input: the table holds two entries last seen at time 0, which
at time 1000 are both older than the timeout of 60 seconds. A lookup for the flow
`10.0.0.1:1000 -> 10.0.0.5:22` returns 0; it has unlinked the head entry only, and the second
entry, expired as well, is still in the table. -/
theorem C8_expired_entry_survives_lookup :
    expired example_host 1000 (conn_request 0) ∧ expired example_host 1000 (conn_other 0)
      ∧ sr_fw_match_connections example_host
          { rules := [], connections := [conn_request 0, conn_other 0] }
          1000 TCP 0x0100000A 0x0500000A 1000 22
        = (0, { rules := [], connections := [conn_other 0] }) := by
  decide

/-! ## C9: expired connections do not vouch -/

/-- C9: for every firewall state, time and well-formed TCP or UDP packet such that every
connection entry of the packet's flow (same protocol, endpoint pair in either orientation) is
older than `SR_FW_CONN_TIMEOUT`, `sr_fw_match_connections` returns 0 and the verdict of
`sr_fw_inspect` is the verdict of the rule table alone: the action of the first matching rule,
`ALLOW` when no rule matches. -/
theorem C9_expired_connection_never_vouches (H : Host) (fw : sr_fw) (now : Int)
    (packet : Packet) (len u1 u2 sp dp : Nat)
    (hproto : packet.ip_p = TCP ∨ packet.ip_p = UDP)
    (hports : sr_get_ports H packet len u1 u2 = (1, sp, dp))
    (hconn : ∀ c ∈ fw.connections,
      same_flow c packet.ip_p packet.ip_src packet.ip_dst sp dp →
        now - c.last_seen > H.SR_FW_CONN_TIMEOUT) :
    (sr_fw_match_connections H fw now packet.ip_p packet.ip_src packet.ip_dst sp dp).1 = 0
      ∧ (sr_fw_inspect H fw now packet len u1 u2).1
          = first_match_verdict fw.rules packet.ip_p packet.ip_src packet.ip_dst sp dp := by
  have hicmp : packet.ip_p ≠ ICMP := by
    rcases hproto with h | h <;> rw [h] <;> decide
  have h0 := sr_fw_match_connections_no_live_match H fw now packet.ip_p packet.ip_src
    packet.ip_dst sp dp hconn
  refine ⟨h0, ?_⟩
  rw [sr_fw_inspect_of_ports H fw now packet len u1 u2 sp dp hicmp hports, h0]
  simp only [ne_eq, not_true_eq_false, if_false]
  rw [sr_fw_match_connections_rules]
  exact sr_fw_inspect_rules_verdict _ now _ _ _ _ _ fw.rules

/-- C9, worked instance: the entry of the flow `10.0.0.1:1000 <-> 10.0.0.5:80` was last seen at
time 0; at time 1000 the reply `10.0.0.5:80 -> 10.0.0.1:1000` is not vouched for, and the rule
`deny tcp from 10.0.0.5/32 to 10.0.0.1/32` denies it. -/
theorem C9_expired_connection_never_vouches_witness :
    same_flow (conn_request 0) TCP 0x0500000A 0x0100000A 80 1000
      ∧ (sr_fw_match_connections example_host
          { rules := [rule_deny_reply, rule_allow_tcp], connections := [conn_request 0] }
          1000 TCP 0x0500000A 0x0100000A 80 1000).1 = 0
      ∧ (sr_fw_inspect example_host
          { rules := [rule_deny_reply, rule_allow_tcp], connections := [conn_request 0] }
          1000 packet_reply 54 0 0).1 = DENY :=
  ⟨by decide,
    (C9_expired_connection_never_vouches example_host
      { rules := [rule_deny_reply, rule_allow_tcp], connections := [conn_request 0] }
      1000 packet_reply 54 0 0 80 1000 (Or.inl rfl) (by decide) (by decide)).1,
    (C9_expired_connection_never_vouches example_host
      { rules := [rule_deny_reply, rule_allow_tcp], connections := [conn_request 0] }
      1000 packet_reply 54 0 0 80 1000 (Or.inl rfl) (by decide) (by decide)).2⟩

/-! ## Facts about the string routines -/

theorem strtok_blank (w : List Char) (hw : is_blank w) : strtok w = none := by
  unfold strtok
  have : w.dropWhile (fun c => decide (c ∈ DELIMITER)) = [] := by
    rw [List.dropWhile_eq_nil_iff]
    intro c hc
    simpa using hw c hc
  rw [this]

/-- The first token of a text: leading delimiters are skipped, the token ends at the next
delimiter, and the scan resumes after that delimiter. -/
theorem strtok_token (w t rest : List Char) (hw : is_blank w) (ht : is_token t)
    (hrest : is_blank (rest.take 1)) :
    strtok (w ++ t ++ rest) = some (t, rest.drop 1) := by
  obtain ⟨hne, hnd⟩ := ht
  unfold strtok
  have h1 : (w ++ t ++ rest).dropWhile (fun c => decide (c ∈ DELIMITER)) = t ++ rest := by
    rw [List.append_assoc, List.dropWhile_append_of_pos (by intro c hc; simpa using hw c hc)]
    cases t with
    | nil => exact absurd rfl hne
    | cons c cs =>
      have hc : c ∉ DELIMITER := hnd c (List.mem_cons_self _ _)
      simp [List.dropWhile_cons, hc]
  rw [h1]
  cases ht' : t ++ rest with
  | nil =>
    cases t with
    | nil => exact absurd rfl hne
    | cons c cs => simp at ht'
  | cons c cs =>
    simp only
    rw [← ht']
    have hpos : ∀ a ∈ t, (fun c => !decide (c ∈ DELIMITER)) a = true := by
      intro a ha; simpa using hnd a ha
    have hrest' : rest.takeWhile (fun c => !decide (c ∈ DELIMITER)) = []
        ∧ rest.dropWhile (fun c => !decide (c ∈ DELIMITER)) = rest := by
      cases rest with
      | nil => simp
      | cons d ds =>
        have hd : d ∈ DELIMITER := hrest d (by simp)
        constructor
        · rw [List.takeWhile_cons_of_neg (by simpa using hd)]
        · rw [List.dropWhile_cons_of_neg (by simpa using hd)]
    rw [List.takeWhile_append_of_pos hpos, List.dropWhile_append_of_pos hpos, hrest'.1,
      hrest'.2, List.append_nil]

/-- The first token of a text in which a separator follows the token. -/
theorem strtok_token_sep (w t w' more : List Char) (hw : is_blank w) (ht : is_token t)
    (hw' : is_separator w') :
    strtok (w ++ t ++ (w' ++ more)) = some (t, w'.drop 1 ++ more) := by
  obtain ⟨hne, hd⟩ := hw'
  cases w' with
  | nil => exact absurd rfl hne
  | cons d ds =>
    rw [strtok_token w t _ hw ht]
    · simp
    · intro c hc
      simp at hc
      rw [hc]
      exact hd d (List.mem_cons_self _ _)

theorem is_blank_drop_one (w : List Char) (hw : is_separator w) : is_blank (w.drop 1) :=
  fun c hc => hw.2 c (List.mem_of_mem_drop hc)

theorem is_blank_take_one (w : List Char) (hw : is_blank w) : is_blank (w.take 1) :=
  fun c hc => hw c (List.mem_of_mem_take hc)

/-- A decimal digit is neither a delimiter nor white space nor a sign. -/
theorem digit_facts (c : Char) (h : 48 ≤ c.toNat ∧ c.toNat ≤ 57) :
    c ∉ DELIMITER ∧ isspace c = false ∧ c ≠ '-' ∧ c ≠ '+' ∧ c ≠ '/' ∧ c.toNat ≠ 0 := by
  refine ⟨?_, ?_, ?_, ?_, ?_, by omega⟩
  · intro hc
    simp only [DELIMITER, List.mem_cons, List.mem_singleton, List.not_mem_nil, or_false] at hc
    rcases hc with rfl | rfl | rfl | rfl <;> revert h <;> decide
  · unfold isspace
    have h1 : c ≠ ' ' := by rintro rfl; revert h; decide
    simp only [h1, decide_False, Bool.false_or, Bool.and_eq_false_imp, decide_eq_true_eq,
      decide_eq_false_iff_not, not_le]
    intro _; omega
  · rintro rfl; revert h; decide
  · rintro rfl; revert h; decide
  · rintro rfl; revert h; decide

/-- The routine `atoi` on a text that starts with a digit reads the digits. -/
theorem atoi_digit_head (H : Host) (c : Char) (cs : List Char)
    (h : 48 ≤ c.toNat ∧ c.toNat ≤ 57) (hfit : atoi_digits 0 (c :: cs) ≤ 2147483647) :
    atoi H (c :: cs) = (atoi_digits 0 (c :: cs) : Int) := by
  obtain ⟨_, hsp, hm, hp, _, _⟩ := digit_facts c h
  have hv : (match (c :: cs).dropWhile isspace with
      | '-' :: cs => - (atoi_digits 0 cs : Int)
      | '+' :: cs => (atoi_digits 0 cs : Int)
      | cs => (atoi_digits 0 cs : Int)) = (atoi_digits 0 (c :: cs) : Int) := by
    rw [List.dropWhile_cons_of_neg (by simp [hsp])]
    split
    · rename_i heq; injection heq with h1 _; exact absurd h1 hm
    · rename_i heq; injection heq with h1 _; exact absurd h1 hp
    · rfl
  unfold atoi
  simp only [hv]
  rw [if_pos (by omega)]

/-- The decimal digit characters of core: `Nat.digitChar d` for `d < 10` is the character of
code `48 + d`. -/
theorem digitChar_code (d : Nat) (h : d < 10) : (Nat.digitChar d).toNat = 48 + d := by
  interval_cases d <;> rfl

/-- The numeral that `Nat.toDigitsCore 10` writes in front of `ds`: only digits, and reading
them continues a value `acc` to `acc * 10 ^ length + n`. -/
theorem toDigitsCore_spec (n : Nat) :
    ∀ (fuel : Nat) (ds : List Char), n < fuel →
      ∃ pre : List Char, Nat.toDigitsCore 10 fuel n ds = pre ++ ds ∧ pre ≠ []
        ∧ (∀ c ∈ pre, 48 ≤ c.toNat ∧ c.toNat ≤ 57)
        ∧ ∀ (acc : Nat) (rest : List Char),
            atoi_digits acc (pre ++ rest) = atoi_digits (acc * 10 ^ pre.length + n) rest := by
  induction n using Nat.strong_induction_on with
  | _ n ih =>
    intro fuel ds hfuel
    obtain ⟨f, rfl⟩ : ∃ f, fuel = f + 1 := ⟨fuel - 1, by omega⟩
    have hd : n % 10 < 10 := Nat.mod_lt _ (by decide)
    have hcode := digitChar_code (n % 10) hd
    unfold Nat.toDigitsCore
    by_cases h0 : n / 10 = 0
    · simp only [h0, if_true]
      refine ⟨[Nat.digitChar (n % 10)], rfl, by simp, ?_, ?_⟩
      · intro c hc
        rw [List.mem_singleton] at hc
        rw [hc, hcode]; omega
      · intro acc rest
        have hn : n % 10 = n := Nat.mod_eq_of_lt (by omega)
        simp only [List.singleton_append, atoi_digits, hcode, List.length_singleton, pow_one]
        rw [if_pos (by omega)]
        congr 1
        omega
    · simp only [h0, if_false]
      have hlt : n / 10 < n := Nat.div_lt_self (by omega) (by decide)
      obtain ⟨pre, he, _, hdig, hval⟩ := ih (n / 10) hlt f (Nat.digitChar (n % 10) :: ds)
        (by omega)
      refine ⟨pre ++ [Nat.digitChar (n % 10)], by rw [he]; simp, by simp, ?_, ?_⟩
      · intro c hc
        rcases List.mem_append.1 hc with hc | hc
        · exact hdig c hc
        · rw [List.mem_singleton] at hc
          rw [hc, hcode]; omega
      · intro acc rest
        rw [List.append_assoc, hval]
        simp only [List.singleton_append, atoi_digits, hcode, List.length_append,
          List.length_singleton]
        rw [if_pos (by omega)]
        congr 1
        have := Nat.div_add_mod n 10
        rw [pow_succ]
        have e : 48 + n % 10 - 48 = n % 10 := by omega
        rw [e]
        nlinarith [this]

/-- The decimal numeral of `n` consists of digits only, and `atoi` reads `n` from it when `n`
fits an `int`. -/
theorem atoi_toDigits (H : Host) (n : Nat) (hfit : n ≤ 2147483647) :
    Nat.toDigits 10 n ≠ [] ∧ (∀ c ∈ Nat.toDigits 10 n, 48 ≤ c.toNat ∧ c.toNat ≤ 57)
      ∧ atoi H (Nat.toDigits 10 n) = (n : Int) := by
  obtain ⟨pre, he, hne, hdig, hval⟩ := toDigitsCore_spec n (n + 1) [] (by omega)
  have hpre : Nat.toDigits 10 n = pre := by
    unfold Nat.toDigits; rw [he, List.append_nil]
  rw [hpre]
  refine ⟨hne, hdig, ?_⟩
  have hv : atoi_digits 0 pre = n := by
    have := hval 0 []
    rw [List.append_nil] at this
    rw [this]
    simp [atoi_digits]
  cases hp : pre with
  | nil => exact absurd hp hne
  | cons c cs =>
    rw [hp] at hv
    rw [atoi_digit_head H c cs (hdig c (by rw [hp]; exact List.mem_cons_self _ _))
      (by rw [hv]; exact hfit), hv]

/-! ## Facts about the rule parser -/

/-- On strings without NUL, `strcmp` answers 0 only for equal strings. -/
theorem strcmp_eq_zero (s : List Char) :
    ∀ t : List Char, strcmp s t = 0 → (∀ c ∈ s, c.toNat ≠ 0) → (∀ c ∈ t, c.toNat ≠ 0) →
      s = t := by
  induction s with
  | nil =>
    intro t h _ ht
    cases t with
    | nil => rfl
    | cons b bs =>
      simp only [strcmp, neg_eq_zero, Nat.cast_eq_zero] at h
      exact absurd h (ht b (List.mem_cons_self _ _))
  | cons a s1 ih =>
    intro t h hs ht
    cases t with
    | nil =>
      simp only [strcmp, Nat.cast_eq_zero] at h
      exact absurd h (hs a (List.mem_cons_self _ _))
    | cons b s2 =>
      simp only [strcmp] at h
      by_cases hab : a = b
      · rw [if_pos hab] at h
        rw [hab, ih s2 h (fun c hc => hs c (List.mem_cons_of_mem _ hc))
          (fun c hc => ht c (List.mem_cons_of_mem _ hc))]
      · rw [if_neg hab] at h
        exfalso
        apply hab
        have h' : a.toNat = b.toNat := by omega
        rw [← Char.ofNat_toNat a, ← Char.ofNat_toNat b, h']

theorem strcmp_self (s : List Char) : strcmp s s = 0 := by
  induction s with
  | nil => rfl
  | cons a s ih => simp [strcmp, ih]

/-- A valid netblock token is a token. -/
theorem valid_netblock_is_token (H : Host) (tok : List Char) (h : valid_netblock H tok) :
    is_token tok := by
  rcases h with rfl | ⟨lit, n, rfl, hn, _, hlit⟩
  · exact ⟨by decide, by decide⟩
  · refine ⟨by simp, ?_⟩
    intro c hc
    rcases List.mem_append.1 hc with hc | hc
    · exact (hlit c hc).1
    · rcases List.mem_cons.1 hc with rfl | hc
      · decide
      · exact (digit_facts c ((atoi_toDigits H n (by omega)).2.1 c hc)).1

/-- The function `parse_ip_block` on a valid netblock token: `any` yields address 0 and mask 0;
a literal with a length `n` yields the address of `inet_aton` and, for `n` from 1 to 32, the
mask `(0xFFFFFFFF >> (32 - n)) << (32 - n)`; for `n = 0` the shift count is 32 and the mask is
what the machine stores for the shift by the width of the operand. -/
theorem parse_ip_block_valid (H : Host) (tok : List Char) (addr mask : Nat)
    (h : valid_netblock H tok) :
    (parse_ip_block H tok addr mask).1 = 1
      ∧ (tok = FW_ANY → parse_ip_block H tok addr mask = (1, 0, 0))
      ∧ ∀ (lit : List Char) (n : Nat) (a : Nat),
          tok = lit ++ IP_BLOCK :: Nat.toDigits 10 n → n ≤ 32 → H.inet_aton lit = some a →
          (∀ c ∈ lit, c ∉ DELIMITER ∧ c ≠ IP_BLOCK ∧ c.toNat ≠ 0) →
          parse_ip_block H tok addr mask
            = ((1 : Int), a,
                if 32 - n < 32 then ((0xFFFFFFFF >>> (32 - n)) <<< (32 - n)) % 2 ^ 32
                else H.shift_by_width % 2 ^ 32) := by
  have hany : tok = FW_ANY → parse_ip_block H tok addr mask = (1, 0, 0) := by
    rintro rfl
    unfold parse_ip_block
    rw [if_pos (strcmp_self _)]
  have hlit : ∀ (lit : List Char) (n : Nat) (a : Nat),
      tok = lit ++ IP_BLOCK :: Nat.toDigits 10 n → n ≤ 32 → H.inet_aton lit = some a →
      (∀ c ∈ lit, c ∉ DELIMITER ∧ c ≠ IP_BLOCK ∧ c.toNat ≠ 0) →
      parse_ip_block H tok addr mask
        = ((1 : Int), a,
            if 32 - n < 32 then ((0xFFFFFFFF >>> (32 - n)) <<< (32 - n)) % 2 ^ 32
            else H.shift_by_width % 2 ^ 32) := by
    rintro lit n a rfl hn ha hl
    obtain ⟨_, hdig, hat⟩ := atoi_toDigits H n (by omega)
    have hnotany : ¬ strcmp (lit ++ IP_BLOCK :: Nat.toDigits 10 n) FW_ANY = 0 := by
      intro h0
      have := strcmp_eq_zero _ _ h0
        (by
          intro c hc
          rcases List.mem_append.1 hc with hc | hc
          · exact (hl c hc).2.2
          · rcases List.mem_cons.1 hc with rfl | hc
            · decide
            · exact (digit_facts c (hdig c hc)).2.2.2.2.2)
        (by decide)
      have hmem : IP_BLOCK ∈ lit ++ IP_BLOCK :: Nat.toDigits 10 n := by simp
      rw [this] at hmem
      revert hmem
      decide
    have hnot : IP_BLOCK ∉ lit := fun hc => (hl _ hc).2.1 rfl
    have hchr : strchr (lit ++ IP_BLOCK :: Nat.toDigits 10 n) IP_BLOCK = some lit.length := by
      unfold strchr
      rw [if_pos (by simp), List.indexOf_append_of_not_mem hnot, List.indexOf_cons_self]
      rfl
    unfold parse_ip_block
    rw [if_neg hnotany, hchr]
    simp only [List.take_left', List.drop_left', ha]
    have hdrop : List.drop (lit.length + 1) (lit ++ IP_BLOCK :: Nat.toDigits 10 n)
        = Nat.toDigits 10 n := by
      rw [List.drop_append_eq_append_drop]
      simp
    rw [hdrop, hat]
    have hc : ¬ ((n : Int) < 0 ∨ (n : Int) > 32) := by omega
    rw [if_neg hc]
    have : ((32 : Int) - (n : Int)).toNat = 32 - n := by omega
    rw [this]
  refine ⟨?_, hany, hlit⟩
  rcases h with h | ⟨lit, n, h1, h2, h3, h4⟩
  · rw [hany h]
  · obtain ⟨a, ha⟩ := Option.isSome_iff_exists.1 h3
    rw [hlit lit n a h1 h2 ha h4]

/-- On the example machine the token `0.0.0.0/0` yields the mask `0xFFFFFFFF`: the shift
count 32 is taken modulo 32, so nothing is shifted out. The rule
`deny tcp from 0.0.0.0/0 to any` is stored with that source mask. -/
theorem parse_ip_block_length_zero :
    parse_ip_block example_host "0.0.0.0/0".toList 0 0 = (1, 0, 0xFFFFFFFF)
      ∧ sr_parse_fw_rule example_host "deny tcp from 0.0.0.0/0 to any".toList
          (fw_rule_zero DENY IN)
        = some (0,
          { action := DENY, protocol := TCP, direction := BOTH, src_addr := 0,
            src_mask := 0xFFFFFFFF, src_port := 0, dst_addr := 0, dst_mask := 0,
            dst_port := 0 })
      ∧ atoi example_host "4294967320".toList = 24 := by
  decide

/-- The first token of a text in which a separator and a further token follow it. -/
theorem strtok_step (w t w' t' more : List Char) (hw : is_blank w) (ht : is_token t)
    (hw' : is_separator w') :
    strtok (w ++ t ++ (w' ++ t' ++ more)) = some (t, w'.drop 1 ++ t' ++ more) := by
  rw [List.append_assoc w' t' more, strtok_token_sep w t w' _ hw ht hw', List.append_assoc]

/-- The tokens of a rule line up to the destination netblock, one `strtok` call after the
other. -/
theorem rule_line_tokens (w0 atok w1 ptok w2 w3 src w4 w5 dst tail : List Char)
    (hta : is_token atok) (htp : is_token ptok) (hts : is_token src) (htd : is_token dst)
    (h0 : is_blank w0) (h1 : is_separator w1) (h2 : is_separator w2) (h3 : is_separator w3)
    (h4 : is_separator w4) (h5 : is_separator w5) (htail : is_blank (tail.take 1)) :
    strtok (rule_line w0 atok w1 ptok w2 w3 src w4 w5 dst tail)
        = some (atok, w1.drop 1 ++ ptok ++ (w2 ++ FW_FROM ++ (w3 ++ src ++ (w4 ++ FW_TO
            ++ (w5 ++ dst ++ tail)))))
      ∧ strtok (w1.drop 1 ++ ptok ++ (w2 ++ FW_FROM ++ (w3 ++ src ++ (w4 ++ FW_TO
            ++ (w5 ++ dst ++ tail)))))
        = some (ptok, w2.drop 1 ++ FW_FROM ++ (w3 ++ src ++ (w4 ++ FW_TO
            ++ (w5 ++ dst ++ tail))))
      ∧ strtok (w2.drop 1 ++ FW_FROM ++ (w3 ++ src ++ (w4 ++ FW_TO ++ (w5 ++ dst ++ tail))))
        = some (FW_FROM, w3.drop 1 ++ src ++ (w4 ++ FW_TO ++ (w5 ++ dst ++ tail)))
      ∧ strtok (w3.drop 1 ++ src ++ (w4 ++ FW_TO ++ (w5 ++ dst ++ tail)))
        = some (src, w4.drop 1 ++ FW_TO ++ (w5 ++ dst ++ tail))
      ∧ strtok (w4.drop 1 ++ FW_TO ++ (w5 ++ dst ++ tail))
        = some (FW_TO, w5.drop 1 ++ dst ++ tail)
      ∧ strtok (w5.drop 1 ++ dst ++ tail) = some (dst, tail.drop 1) := by
  have hfrom : is_token FW_FROM := ⟨by decide, by decide⟩
  have hto : is_token FW_TO := ⟨by decide, by decide⟩
  refine ⟨?_, ?_, ?_, ?_, ?_, ?_⟩
  · unfold rule_line
    exact strtok_step w0 atok w1 ptok _ h0 hta h1
  · exact strtok_step _ ptok w2 FW_FROM _ (is_blank_drop_one w1 h1) htp h2
  · exact strtok_step _ FW_FROM w3 src _ (is_blank_drop_one w2 h2) hfrom h3
  · exact strtok_step _ src w4 FW_TO _ (is_blank_drop_one w3 h3) hts h4
  · exact strtok_step _ FW_TO w5 dst _ (is_blank_drop_one w4 h4) hto h5
  · exact strtok_token _ dst tail (is_blank_drop_one w5 h5) htd htail

/-- A separator in front of a text: its first character is a delimiter, and dropping it
leaves the rest of the separator in front of the text. -/
theorem separator_append (w t x : List Char) (hw : is_separator w) :
    is_blank ((w ++ t ++ x).take 1) ∧ (w ++ t ++ x).drop 1 = w.drop 1 ++ t ++ x := by
  obtain ⟨hne, hd⟩ := hw
  cases w with
  | nil => exact absurd rfl hne
  | cons d ds =>
    constructor
    · intro c hc
      simp at hc
      rw [hc]
      exact hd d (List.mem_cons_self _ _)
    · simp

/-- The decimal numeral of a port number is a token that `atoi` reads as that number. -/
theorem port_numeral (H : Host) (port : Nat) (hport : 1 ≤ port ∧ port ≤ 65535) :
    is_token (Nat.toDigits 10 port)
      ∧ ¬ (atoi H (Nat.toDigits 10 port) < 1 ∨ atoi H (Nat.toDigits 10 port) > PORT_MAX)
      ∧ (atoi H (Nat.toDigits 10 port)).toNat = port := by
  obtain ⟨hne, hdig, hat⟩ := atoi_toDigits H port (by omega)
  refine ⟨⟨hne, fun c hc => (digit_facts c (hdig c hc)).1⟩, ?_, ?_⟩
  · rw [hat]; unfold PORT_MAX; omega
  · rw [hat]; simp

/-! ## C10: lines without source port -/

/-- C10: for every line `<action> <protocol> from <src> to <dst> [<port> [<in|out>]]` with
action `allow` or `deny`, protocol `tcp`, `udp` or `icmp`, valid netblock tokens and a port
from 1 to 65535 written as its decimal numeral, whatever separators stand between the tokens
and whatever blanks surround the line, `sr_parse_fw_rule` returns 0 and the record holds that
action and protocol, the source and destination address and mask as `parse_ip_block` yields
them, source port 0, the destination port given (0 when absent) and the direction given
(`BOTH` when absent). -/
theorem C10_rule_line_parsed (H : Host) (rule : sr_fw_rule_t) (atok : List Char)
    (a : sr_fw_action) (ptok : List Char) (p : Nat) (src dst : List Char) (port : Nat)
    (dtok : List Char) (d : sr_fw_direction) (w0 w1 w2 w3 w4 w5 w6 w7 wend : List Char)
    (ha : (atok, a) ∈ [(ACTION_ALLOW, ALLOW), (ACTION_DENY, DENY)])
    (hp : (ptok, p) ∈ [(PROTO_TCP, TCP), (PROTO_UDP, UDP), (PROTO_ICMP, ICMP)])
    (hsrc : valid_netblock H src) (hdst : valid_netblock H dst)
    (hport : 1 ≤ port ∧ port ≤ 65535)
    (hd : (dtok, d) ∈ [(DIR_IN, IN), (DIR_OUT, OUT)])
    (h0 : is_blank w0) (h1 : is_separator w1) (h2 : is_separator w2) (h3 : is_separator w3)
    (h4 : is_separator w4) (h5 : is_separator w5) (h6 : is_separator w6)
    (h7 : is_separator w7) (hend : is_blank wend) :
    sr_parse_fw_rule H (rule_line w0 atok w1 ptok w2 w3 src w4 w5 dst wend) rule
        = some (0, parsed_rule H rule a p src dst 0 BOTH)
      ∧ sr_parse_fw_rule H
          (rule_line w0 atok w1 ptok w2 w3 src w4 w5 dst (w6 ++ Nat.toDigits 10 port ++ wend))
          rule
        = some (0, parsed_rule H rule a p src dst port BOTH)
      ∧ sr_parse_fw_rule H
          (rule_line w0 atok w1 ptok w2 w3 src w4 w5 dst
            (w6 ++ Nat.toDigits 10 port ++ (w7 ++ dtok ++ wend)))
          rule
        = some (0, parsed_rule H rule a p src dst port d) := by
  have hta : is_token atok ∧ (if strncmp atok ACTION_ALLOW 5 = 0 then some ALLOW
      else if strncmp atok ACTION_DENY 4 = 0 then some DENY else none) = some a := by
    simp only [List.mem_cons, Prod.mk.injEq, List.mem_singleton, List.not_mem_nil,
      or_false] at ha
    rcases ha with ⟨rfl, rfl⟩ | ⟨rfl, rfl⟩ <;> exact ⟨⟨by decide, by decide⟩, by decide⟩
  have htp : is_token ptok ∧ (if strncmp ptok PROTO_TCP 3 = 0 then some TCP
      else if strncmp ptok PROTO_UDP 3 = 0 then some UDP
      else if strncmp ptok PROTO_ICMP 4 = 0 then some ICMP else none) = some p := by
    simp only [List.mem_cons, Prod.mk.injEq, List.mem_singleton, List.not_mem_nil,
      or_false] at hp
    rcases hp with ⟨rfl, rfl⟩ | ⟨rfl, rfl⟩ | ⟨rfl, rfl⟩ <;>
      exact ⟨⟨by decide, by decide⟩, by decide⟩
  have hts := valid_netblock_is_token H src hsrc
  have htd := valid_netblock_is_token H dst hdst
  have hb1 := (parse_ip_block_valid H src rule.src_addr rule.src_mask hsrc).1
  have hb2 := (parse_ip_block_valid H dst rule.dst_addr rule.dst_mask hdst).1
  obtain ⟨hpt, hpr, hpv⟩ := port_numeral H port hport
  have hfrom : strncmp FW_FROM FW_FROM 4 = 0 := by decide
  have hto : strcmp FW_TO FW_TO = 0 := by decide
  have hne : ¬ ((1 : Int) = -1) := by decide
  have hwend : strtok (wend.drop 1) = none :=
    strtok_blank _ (fun c hc => hend c (List.mem_of_mem_drop hc))
  refine ⟨?_, ?_, ?_⟩
  · -- no port
    obtain ⟨e1, e2, e3, e4, e5, e6⟩ := rule_line_tokens w0 atok w1 ptok w2 w3 src w4 w5 dst
      wend hta.1 htp.1 hts htd h0 h1 h2 h3 h4 h5 (is_blank_take_one wend hend)
    simp only [sr_parse_fw_rule, e1, hta.2, e2, htp.2, e3, hfrom, e4, hb1, hne, e5, hto, e6,
      hb2, hwend, ne_eq, not_true_eq_false, if_false, parsed_rule]
  · -- a port
    obtain ⟨hbl, hdrop⟩ := separator_append w6 (Nat.toDigits 10 port) wend h6
    obtain ⟨e1, e2, e3, e4, e5, e6⟩ := rule_line_tokens w0 atok w1 ptok w2 w3 src w4 w5 dst
      (w6 ++ Nat.toDigits 10 port ++ wend) hta.1 htp.1 hts htd h0 h1 h2 h3 h4 h5 hbl
    rw [hdrop] at e6
    have e7 : strtok (w6.drop 1 ++ Nat.toDigits 10 port ++ wend)
        = some (Nat.toDigits 10 port, wend.drop 1) :=
      strtok_token _ _ wend (is_blank_drop_one w6 h6) hpt (is_blank_take_one wend hend)
    simp only [sr_parse_fw_rule, e1, hta.2, e2, htp.2, e3, hfrom, e4, hb1, hne, e5, hto, e6,
      hb2, e7, hpr, hpv, hwend, ne_eq, not_true_eq_false, if_false, parsed_rule]
  · -- a port and a direction
    obtain ⟨hbl, hdrop⟩ := separator_append w6 (Nat.toDigits 10 port) (w7 ++ dtok ++ wend) h6
    obtain ⟨e1, e2, e3, e4, e5, e6⟩ := rule_line_tokens w0 atok w1 ptok w2 w3 src w4 w5 dst
      (w6 ++ Nat.toDigits 10 port ++ (w7 ++ dtok ++ wend)) hta.1 htp.1 hts htd h0 h1 h2 h3 h4
      h5 hbl
    rw [hdrop] at e6
    have htd' : is_token dtok := by
      simp only [List.mem_cons, Prod.mk.injEq, List.mem_singleton, List.not_mem_nil,
        or_false] at hd
      rcases hd with ⟨rfl, _⟩ | ⟨rfl, _⟩ <;> exact ⟨by decide, by decide⟩
    have e7 : strtok (w6.drop 1 ++ Nat.toDigits 10 port ++ (w7 ++ dtok ++ wend))
        = some (Nat.toDigits 10 port, w7.drop 1 ++ dtok ++ wend) :=
      strtok_step _ _ w7 dtok wend (is_blank_drop_one w6 h6) hpt h7
    have e8 : strtok (w7.drop 1 ++ dtok ++ wend) = some (dtok, wend.drop 1) :=
      strtok_token _ dtok wend (is_blank_drop_one w7 h7) htd' (is_blank_take_one wend hend)
    simp only [List.mem_cons, Prod.mk.injEq, List.mem_singleton, List.not_mem_nil,
      or_false] at hd
    rcases hd with ⟨rfl, rfl⟩ | ⟨rfl, rfl⟩
    · have hin : strncmp DIR_IN DIR_IN 3 = 0 := by decide
      simp only [sr_parse_fw_rule, e1, hta.2, e2, htp.2, e3, hfrom, e4, hb1, hne, e5, hto, e6,
        hb2, e7, hpr, hpv, e8, hin, ne_eq, not_true_eq_false, if_false, if_true, parsed_rule]
    · have hin : ¬ (strncmp DIR_OUT DIR_IN 3 = 0) := by decide
      have hout : strncmp DIR_OUT DIR_OUT 3 = 0 := by decide
      simp only [sr_parse_fw_rule, e1, hta.2, e2, htp.2, e3, hfrom, e4, hb1, hne, e5, hto, e6,
        hb2, e7, hpr, hpv, e8, hin, hout, ne_eq, not_true_eq_false, if_false, if_true,
        parsed_rule]

/-- C10, worked instance: on the example machine the line
`allow tcp from 10.0.0.0/24 to any 80` yields action `ALLOW`, protocol `TCP`, source netblock
`10.0.0.0` (read `0x0000000A`) with mask `0xFFFFFF00`, destination netblock `(0, 0)`, source
port 0, destination port 80 and direction `BOTH`. -/
theorem C10_rule_line_parsed_witness :
    valid_netblock example_host "10.0.0.0/24".toList
      ∧ valid_netblock example_host "any".toList
      ∧ sr_parse_fw_rule example_host "allow tcp from 10.0.0.0/24 to any 80".toList
          { action := DENY, protocol := 0, direction := IN, src_addr := 0, src_mask := 0,
            src_port := 0, dst_addr := 0, dst_mask := 0, dst_port := 0 }
        = some (0,
          { action := ALLOW, protocol := TCP, direction := BOTH, src_addr := 0x0000000A,
            src_mask := 0xFFFFFF00, src_port := 0, dst_addr := 0, dst_mask := 0,
            dst_port := 80 }) :=
  have h1 : valid_netblock example_host "10.0.0.0/24".toList :=
    Or.inr ⟨"10.0.0.0".toList, 24, by decide, by decide, by decide, by decide⟩
  have h2 : valid_netblock example_host "any".toList := Or.inl rfl
  ⟨h1, h2,
    (C10_rule_line_parsed example_host
      { action := DENY, protocol := 0, direction := IN, src_addr := 0, src_mask := 0,
        src_port := 0, dst_addr := 0, dst_mask := 0, dst_port := 0 }
      ACTION_ALLOW ALLOW PROTO_TCP TCP "10.0.0.0/24".toList "any".toList 80 DIR_IN IN
      [] [' '] [' '] [' '] [' '] [' '] [' '] [' '] []
      (by decide) (by decide) h1 h2 (by decide) (by decide)
      (by intro c hc; cases hc) ⟨by decide, by decide⟩ ⟨by decide, by decide⟩
      ⟨by decide, by decide⟩ ⟨by decide, by decide⟩ ⟨by decide, by decide⟩
      ⟨by decide, by decide⟩ ⟨by decide, by decide⟩ (by intro c hc; cases hc)).2.1⟩

/-! ## C11: lines with a source port -/

/-- C11, evaluation at the failing input: on the line `allow tcp from any 1000 to any 80` the
parser stores the source port 1000 and then hands the next token, `to`, to `parse_ip_block`
as the destination netblock; the result is the parse error -1. The same line without the
literal `to` is the one the code accepts with source port 1000. -/
theorem C11_source_port_line_rejected :
    sr_parse_fw_rule example_host "allow tcp from any 1000 to any 80".toList
        (fw_rule_zero DENY IN)
        = some (-1,
          { action := ALLOW, protocol := TCP, direction := IN, src_addr := 0, src_mask := 0,
            src_port := 1000, dst_addr := 0, dst_mask := 0, dst_port := 0 })
      ∧ parse_ip_block example_host FW_TO 0 0 = (-1, 0, 0)
      ∧ sr_parse_fw_rule example_host "allow tcp from any 1000 any 80".toList
          (fw_rule_zero DENY IN)
        = some (0,
          { action := ALLOW, protocol := TCP, direction := BOTH, src_addr := 0, src_mask := 0,
            src_port := 1000, dst_addr := 0, dst_mask := 0, dst_port := 80 }) := by
  decide

/-! ## C12: the literal `from` -/

/-- A line whose first two tokens are a valid action and a valid protocol and whose third
token does not begin with the four characters `from` is a parse error: the parser returns -1,
and the loop of `sr_load_fw` goes on to the next line without adding a rule. -/
theorem sr_parse_fw_rule_from_rejected (H : Host) (rule : sr_fw_rule_t) (atok : List Char)
    (a : sr_fw_action) (ptok : List Char) (p : Nat) (t rest w0 w1 w2 : List Char)
    (ha : (atok, a) ∈ [(ACTION_ALLOW, ALLOW), (ACTION_DENY, DENY)])
    (hp : (ptok, p) ∈ [(PROTO_TCP, TCP), (PROTO_UDP, UDP), (PROTO_ICMP, ICMP)])
    (ht : is_token t) (hnf : strncmp t FW_FROM 4 ≠ 0)
    (h0 : is_blank w0) (h1 : is_separator w1) (h2 : is_separator w2)
    (hrest : is_blank (rest.take 1)) :
    sr_parse_fw_rule H (w0 ++ atok ++ (w1 ++ ptok ++ (w2 ++ t ++ rest))) rule
        = some (-1, { rule with action := a, protocol := p })
      ∧ ∀ (action0 : sr_fw_action) (direction0 : sr_fw_direction) (fw : sr_fw)
          (more : List (List Char)),
          sr_load_fw_loop H action0 direction0 fw
              ((w0 ++ atok ++ (w1 ++ ptok ++ (w2 ++ t ++ rest))) :: more)
            = sr_load_fw_loop H action0 direction0 fw more := by
  have hta : is_token atok ∧ (if strncmp atok ACTION_ALLOW 5 = 0 then some ALLOW
      else if strncmp atok ACTION_DENY 4 = 0 then some DENY else none) = some a := by
    simp only [List.mem_cons, Prod.mk.injEq, List.mem_singleton, List.not_mem_nil,
      or_false] at ha
    rcases ha with ⟨rfl, rfl⟩ | ⟨rfl, rfl⟩ <;> exact ⟨⟨by decide, by decide⟩, by decide⟩
  have htp : is_token ptok ∧ (if strncmp ptok PROTO_TCP 3 = 0 then some TCP
      else if strncmp ptok PROTO_UDP 3 = 0 then some UDP
      else if strncmp ptok PROTO_ICMP 4 = 0 then some ICMP else none) = some p := by
    simp only [List.mem_cons, Prod.mk.injEq, List.mem_singleton, List.not_mem_nil,
      or_false] at hp
    rcases hp with ⟨rfl, rfl⟩ | ⟨rfl, rfl⟩ | ⟨rfl, rfl⟩ <;>
      exact ⟨⟨by decide, by decide⟩, by decide⟩
  have e1 := strtok_step w0 atok w1 ptok (w2 ++ t ++ rest) h0 hta.1 h1
  have e2 := strtok_step (w1.drop 1) ptok w2 t rest (is_blank_drop_one w1 h1) htp.1 h2
  have e3 := strtok_token (w2.drop 1) t rest (is_blank_drop_one w2 h2) ht hrest
  have hparse : ∀ r0 : sr_fw_rule_t,
      sr_parse_fw_rule H (w0 ++ atok ++ (w1 ++ ptok ++ (w2 ++ t ++ rest))) r0
        = some (-1, { r0 with action := a, protocol := p }) := by
    intro r0
    simp only [sr_parse_fw_rule, e1, hta.2, e2, htp.2, e3, hnf, ne_eq, not_false_eq_true,
      if_true]
  refine ⟨hparse rule, ?_⟩
  intro action0 direction0 fw more
  simp only [sr_load_fw_loop, hparse, ne_eq, not_true_eq_false, if_false]

/-- C12, evaluation at the failing input: the third token of `allow tcp fromX any to any` is
not the literal `from`, yet `strncmp` on four characters accepts it: the parser returns 0 and
`sr_load_fw` appends the rule to the table. -/
theorem C12_from_with_suffix_accepted :
    strncmp "fromX".toList FW_FROM 4 = 0
      ∧ sr_parse_fw_rule example_host "allow tcp fromX any to any".toList (fw_rule_zero DENY IN)
        = some (0, rule_allow_tcp)
      ∧ sr_load_fw example_host DENY IN { rules := [], connections := [] }
          (some ["allow tcp fromX any to any\n".toList])
        = some (0, { rules := [rule_allow_tcp], connections := [] }) := by
  decide

/-! ## C13: lines that end early -/

/-- C13, evaluation at the failing inputs: on a blank line, a line of white space, and the
lines `allow`, `allow tcp`, `allow tcp from`, `allow tcp from any` and
`allow tcp from any to`, the parser does not return -1: it passes the NULL result of `strtok`
to a string routine. A rule file with such a line makes `sr_load_fw` do the same on that line,
so the load does not go on to the next line. -/
theorem C13_missing_token_dereferenced :
    sr_parse_fw_rule example_host "\n".toList (fw_rule_zero DENY IN) = none
      ∧ sr_parse_fw_rule example_host " \t\n".toList (fw_rule_zero DENY IN) = none
      ∧ sr_parse_fw_rule example_host "allow\n".toList (fw_rule_zero DENY IN) = none
      ∧ sr_parse_fw_rule example_host "allow tcp\n".toList (fw_rule_zero DENY IN) = none
      ∧ sr_parse_fw_rule example_host "allow tcp from\n".toList (fw_rule_zero DENY IN) = none
      ∧ sr_parse_fw_rule example_host "allow tcp from any\n".toList (fw_rule_zero DENY IN)
        = none
      ∧ sr_parse_fw_rule example_host "allow tcp from any to\n".toList (fw_rule_zero DENY IN)
        = none
      ∧ sr_load_fw example_host DENY IN { rules := [], connections := [] }
          (some ["allow tcp\n".toList, "allow tcp from any to any\n".toList])
        = none := by
  decide

/-! ## C14: netblock tokens -/

/-- The return value of `parse_ip_block` is 1 exactly on the token `any` and on the tokens
with a slash whose part before the first slash `inet_aton` accepts and whose part after it
`atoi` reads as a number from 0 to 32; on every other token it is -1. -/
theorem parse_ip_block_result (H : Host) (sp : List Char) (addr mask : Nat) :
    ((parse_ip_block H sp addr mask).1 = 1 ↔
        (strcmp sp FW_ANY = 0 ∨
          (IP_BLOCK ∈ sp ∧ (H.inet_aton (sp.take (sp.indexOf IP_BLOCK))).isSome = true
            ∧ 0 ≤ atoi H (sp.drop (sp.indexOf IP_BLOCK + 1))
            ∧ atoi H (sp.drop (sp.indexOf IP_BLOCK + 1)) ≤ 32)))
      ∧ ((parse_ip_block H sp addr mask).1 = 1 ∨ (parse_ip_block H sp addr mask).1 = -1) := by
  unfold parse_ip_block strchr
  by_cases hany : strcmp sp FW_ANY = 0
  · simp [hany]
  · by_cases hmem : IP_BLOCK ∈ sp
    · cases hin : H.inet_aton (sp.take (sp.indexOf IP_BLOCK)) with
      | none => simp [hany, hmem, hin]
      | some a =>
        by_cases hr : atoi H (sp.drop (sp.indexOf IP_BLOCK + 1)) < 0
            ∨ atoi H (sp.drop (sp.indexOf IP_BLOCK + 1)) > 32
        · simp only [hany, hmem, hin, hr, if_true, if_false]
          constructor
          · constructor
            · intro h; exact absurd h (by decide)
            · rintro (h | ⟨_, _, h1, h2⟩)
              · exact h.elim
              · omega
          · right; trivial
        · simp only [hany, hmem, hin, hr, if_true, if_false]
          constructor
          · constructor
            · intro _; right; exact ⟨trivial, rfl, by omega, by omega⟩
            · intro _; trivial
          · left; trivial
    · simp [hany, hmem]

/-- C14, evaluation at the failing inputs: the tokens `10.0.0.0/` and `10.0.0.0/abc`, whose
CIDR part is empty or not a number, are not rejected: `atoi` reads 0 from them, the range test
passes and `parse_ip_block` returns 1, not -1; `10.0.0.0/24abc` is accepted as the length
24. -/
theorem C14_non_numeric_cidr_accepted :
    atoi example_host [] = 0 ∧ atoi example_host "abc".toList = 0
      ∧ (parse_ip_block example_host "10.0.0.0/".toList 0 0).1 = 1
      ∧ (parse_ip_block example_host "10.0.0.0/abc".toList 0 0).1 = 1
      ∧ atoi example_host "24abc".toList = 24
      ∧ parse_ip_block example_host "10.0.0.0/24abc".toList 0 0
        = (1, 0x0000000A, 0xFFFFFF00) := by
  decide

/-! ## C15: loading a rule file -/

/-- When no line makes the parser pass a NULL token to a string routine, `sr_load_fw` on a
readable file returns 0 and the rule table is the table before the call followed, in file
order, by the rules of the lines on which `sr_parse_fw_rule` does not return -1; the
connection table is unchanged. -/
theorem sr_load_fw_without_fault (H : Host) (action0 : sr_fw_action)
    (direction0 : sr_fw_direction) (lines : List (List Char)) :
    ∀ fw : sr_fw,
    (∀ line ∈ lines, sr_parse_fw_rule H line (fw_rule_zero action0 direction0) ≠ none) →
    sr_load_fw H action0 direction0 fw (some lines)
      = some (0, { fw with rules := fw.rules ++ rules_of_lines H action0 direction0 lines })
    := by
  induction lines with
  | nil => intro fw _; simp [sr_load_fw, sr_load_fw_loop, rules_of_lines]
  | cons line rest ih =>
    intro fw h
    have hrest : ∀ l ∈ rest, sr_parse_fw_rule H l (fw_rule_zero action0 direction0) ≠ none :=
      fun l hl => h l (List.mem_cons_of_mem _ hl)
    have hline := h line (List.mem_cons_self _ _)
    cases hp : sr_parse_fw_rule H line (fw_rule_zero action0 direction0) with
    | none => exact absurd hp hline
    | some cr =>
      obtain ⟨code, r⟩ := cr
      by_cases hcode : code = -1
      · have := ih fw hrest
        simp only [sr_load_fw, sr_load_fw_loop, hp] at this ⊢
        simp only [rules_of_lines, List.filterMap_cons, hp] at this ⊢
        simpa [hcode] using this
      · have := ih (sr_add_fw_rule fw r) hrest
        simp only [sr_load_fw, sr_load_fw_loop, hp] at this ⊢
        simp only [rules_of_lines, List.filterMap_cons, hp] at this ⊢
        simpa [hcode, sr_add_fw_rule, List.append_assoc] using this

/-- C15, evaluation at the failing input: the file holds the lines
`allow tcp from any to any`, an empty line and `deny udp from any to any`. On the first and
the third line `sr_parse_fw_rule` returns 0, but on the empty line it passes the NULL result
of `strtok` to `strncmp`, so `sr_load_fw` does not return 0 with the two rules appended. -/
theorem C15_blank_line_stops_load :
    rules_of_lines example_host DENY IN
        ["allow tcp from any to any\n".toList, "\n".toList,
          "deny udp from any to any\n".toList]
        = [rule_allow_tcp, rule_deny_udp]
      ∧ sr_parse_fw_rule example_host "\n".toList (fw_rule_zero DENY IN) = none
      ∧ sr_load_fw example_host DENY IN { rules := [], connections := [] }
          (some ["allow tcp from any to any\n".toList, "\n".toList,
            "deny udp from any to any\n".toList])
        = none := by
  decide

/-! ## C16: the table after a match -/

/-- The shape of the list that the loop of the tracker leaves when it answers 1: the scanned
list splits at the first unexpired entry of the flow; that entry, with `last_seen` set to the
clock value, is in front, followed by the entries before `conn`, the unexpired entries that
stood before the matched one, and all entries that stood after it. -/
theorem loop_one_shape (H : Host) (now : Int) (protocol ip_src ip_dst src_port dst_port : Nat)
    (rest : List sr_connection_t) :
    ∀ before : List sr_connection_t,
    (sr_fw_match_connections_loop H now protocol ip_src ip_dst src_port dst_port
      before rest).1 = 1 →
    ∃ pre c post, rest = pre ++ c :: post
      ∧ ¬ expired H now c
      ∧ same_flow c protocol ip_src ip_dst src_port dst_port
      ∧ (∀ e ∈ pre, ¬ expired H now e →
          ¬ same_flow e protocol ip_src ip_dst src_port dst_port)
      ∧ (sr_fw_match_connections_loop H now protocol ip_src ip_dst src_port dst_port
          before rest).2
        = { c with last_seen := now }
            :: (before ++ pre.filter (fun e => decide (¬ expired H now e)) ++ post) := by
  induction rest with
  | nil => intro before h; simp [sr_fw_match_connections_loop] at h
  | cons conn next ih =>
    intro before
    unfold sr_fw_match_connections_loop
    by_cases hexp : difftime now conn.last_seen > H.SR_FW_CONN_TIMEOUT
    · rw [if_pos hexp]
      have hexp' : expired H now conn := hexp
      cases before with
      | nil => intro h; simp at h
      | cons p ps =>
        intro h
        obtain ⟨pre, c, post, he, hlive, hflow, hfirst, hres⟩ := ih (p :: ps) h
        refine ⟨conn :: pre, c, post, by rw [he]; rfl, hlive, hflow, ?_, ?_⟩
        · intro e he' hl
          rcases List.mem_cons.1 he' with rfl | he'
          · exact absurd hexp' hl
          · exact hfirst e he' hl
        · simp only at hres ⊢
          rw [hres, List.filter_cons_of_neg (by simpa using hexp')]
    · rw [if_neg hexp]
      have hlive : ¬ expired H now conn := hexp
      by_cases hm : conn.protocol = protocol
          ∧ sr_match_bothdir ip_src src_port ip_dst dst_port
              conn.src_addr conn.src_port conn.dst_addr conn.dst_port = true
      · rw [if_pos hm]
        intro _
        refine ⟨[], conn, next, rfl, hlive, (same_flow_iff _ _ _ _ _ _).2 hm, by simp, ?_⟩
        cases before <;> simp
      · rw [if_neg hm]
        intro h
        obtain ⟨pre, c, post, he, hl, hflow, hfirst, hres⟩ := ih (before ++ [conn]) h
        refine ⟨conn :: pre, c, post, by rw [he]; rfl, hl, hflow, ?_, ?_⟩
        · intro e he' hle
          rcases List.mem_cons.1 he' with rfl | he'
          · exact fun hf => hm ((same_flow_iff _ _ _ _ _ _).1 hf)
          · exact hfirst e he' hle
        · rw [hres, List.filter_cons_of_pos (by simpa using hlive)]
          simp

/-- C16: for every connection table, time and query on which `sr_fw_match_connections`
returns 1, the table splits as `pre ++ c :: post` at the first unexpired entry `c` of the flow
of the query, and the table after the call is `c` with `last_seen = now` (its protocol,
addresses and ports unchanged) at the front, followed by the unexpired entries of `pre` in
their order and then by all entries of `post`, each unchanged; the rule table is the same. -/
theorem C16_match_moves_entry_to_front (H : Host) (fw : sr_fw) (now : Int)
    (protocol ip_src ip_dst src_port dst_port : Nat)
    (h : (sr_fw_match_connections H fw now protocol ip_src ip_dst src_port dst_port).1 = 1) :
    ∃ pre c post, fw.connections = pre ++ c :: post
      ∧ ¬ expired H now c
      ∧ same_flow c protocol ip_src ip_dst src_port dst_port
      ∧ (∀ e ∈ pre, ¬ expired H now e →
          ¬ same_flow e protocol ip_src ip_dst src_port dst_port)
      ∧ sr_fw_match_connections H fw now protocol ip_src ip_dst src_port dst_port
        = (1, { rules := fw.rules,
                connections :=
                  { protocol := c.protocol, src_addr := c.src_addr, src_port := c.src_port,
                    dst_addr := c.dst_addr, dst_port := c.dst_port, last_seen := now }
                  :: (pre.filter (fun e => decide (¬ expired H now e)) ++ post) }) := by
  unfold sr_fw_match_connections at h ⊢
  cases hc : fw.connections with
  | nil => rw [hc] at h; simp at h
  | cons conn next =>
    rw [hc] at h
    simp only at h ⊢
    obtain ⟨pre, c, post, he, hlive, hflow, hfirst, hres⟩ :=
      loop_one_shape H now protocol ip_src ip_dst src_port dst_port (conn :: next) [] h
    refine ⟨pre, c, post, he, hlive, hflow, hfirst, ?_⟩
    rw [Prod.ext_iff]
    refine ⟨h, ?_⟩
    simp only [hres, List.nil_append]

/-- C16, worked instance: at time 120 the table holds an unexpired entry of another flow, an
expired entry, the entry of the flow `10.0.0.1:1000 <-> 10.0.0.5:80` last seen at 90 and one
more entry. The lookup for the reply direction returns 1; the matched entry moves to the
front with `last_seen = 120`, the expired entry is gone, the others keep their order. -/
theorem C16_match_moves_entry_to_front_witness :
    sr_fw_match_connections example_host
        { rules := [], connections := [conn_other 100, conn_udp 0, conn_request 90, conn_ssh 80] }
        120 TCP 0x0500000A 0x0100000A 80 1000
        = (1, { rules := [],
                connections := [conn_request 120, conn_other 100, conn_ssh 80] })
      ∧ ∃ pre c post,
          [conn_other 100, conn_udp 0, conn_request 90, conn_ssh 80] = pre ++ c :: post
          ∧ ¬ expired example_host 120 c
          ∧ same_flow c TCP 0x0500000A 0x0100000A 80 1000
          ∧ (∀ e ∈ pre, ¬ expired example_host 120 e →
              ¬ same_flow e TCP 0x0500000A 0x0100000A 80 1000)
          ∧ sr_fw_match_connections example_host
              { rules := [],
                connections := [conn_other 100, conn_udp 0, conn_request 90, conn_ssh 80] }
              120 TCP 0x0500000A 0x0100000A 80 1000
            = (1, { rules := [],
                    connections :=
                      { protocol := c.protocol, src_addr := c.src_addr,
                        src_port := c.src_port, dst_addr := c.dst_addr,
                        dst_port := c.dst_port, last_seen := 120 }
                      :: (pre.filter (fun e => decide (¬ expired example_host 120 e))
                          ++ post) }) :=
  ⟨by decide,
    C16_match_moves_entry_to_front example_host
      { rules := [], connections := [conn_other 100, conn_udp 0, conn_request 90, conn_ssh 80] }
      120 TCP 0x0500000A 0x0100000A 80 1000 (by decide)⟩

/-! ## C19: recency order -/

theorem recency_ordered_mono (t t' : Int) (l : List sr_connection_t) (htt : t ≤ t')
    (h : recency_ordered t l) : recency_ordered t' l :=
  ⟨h.1, fun e he => le_trans (h.2 e he) htt⟩

theorem recency_ordered_sublist (t : Int) (l l' : List sr_connection_t)
    (hs : List.Sublist l' l) (h : recency_ordered t l) : recency_ordered t l' :=
  ⟨h.1.sublist hs, fun e he => h.2 e (hs.subset he)⟩

/-- An entry seen at `now` in front of a list in recency order at `now`. -/
theorem recency_ordered_cons (now : Int) (c : sr_connection_t) (l : List sr_connection_t)
    (hc : c.last_seen = now) (h : recency_ordered now l) : recency_ordered now (c :: l) := by
  refine ⟨List.pairwise_cons.2 ⟨?_, h.1⟩, ?_⟩
  · intro e he
    rw [hc]
    exact h.2 e he
  · intro e he
    rcases List.mem_cons.1 he with rfl | he
    · exact le_of_eq hc
    · exact h.2 e he

/-- The lookup keeps the recency order. -/
theorem sr_fw_match_connections_recency (H : Host) (fw : sr_fw) (now : Int)
    (protocol ip_src ip_dst src_port dst_port : Nat)
    (h : recency_ordered now fw.connections) :
    recency_ordered now
      (sr_fw_match_connections H fw now protocol ip_src ip_dst src_port dst_port).2.connections
    := by
  rcases sr_fw_match_connections_zero_or_one H fw now protocol ip_src ip_dst src_port dst_port
    with h0 | h1
  · exact recency_ordered_sublist now _ _
      (sr_fw_match_connections_zero_sublist H fw now _ _ _ _ _ h0) h
  · unfold sr_fw_match_connections at h1 ⊢
    cases hc : fw.connections with
    | nil => rw [hc] at h1; simp at h1
    | cons conn next =>
      rw [hc] at h1
      simp only at h1 ⊢
      obtain ⟨pre, c, post, he, _, _, _, hres⟩ :=
        loop_one_shape H now protocol ip_src ip_dst src_port dst_port (conn :: next) [] h1
      rw [hres]
      apply recency_ordered_cons now _ _ rfl
      apply recency_ordered_sublist now (conn :: next)
      · rw [he, List.nil_append]
        exact List.Sublist.append (List.filter_sublist _) (List.sublist_cons_self c post)
      · rw [← hc]; exact h

/-- The insertion keeps the recency order. -/
theorem sr_fw_add_connection_recency (fw : sr_fw) (now : Int)
    (protocol ip_src ip_dst src_port dst_port : Nat)
    (h : recency_ordered now fw.connections) :
    recency_ordered now
      (sr_fw_add_connection fw now protocol ip_src ip_dst src_port dst_port).connections :=
  recency_ordered_cons now _ _ rfl h

/-- The rule loop of the inspector leaves the connection table as it is or inserts the flow
in front of it. -/
theorem sr_fw_inspect_rules_state (fw : sr_fw) (now : Int)
    (protocol ip_src ip_dst src_port dst_port : Nat) (rules : List sr_fw_rule_t) :
    (sr_fw_inspect_rules fw now protocol ip_src ip_dst src_port dst_port rules).2 = fw
      ∨ (sr_fw_inspect_rules fw now protocol ip_src ip_dst src_port dst_port rules).2
          = sr_fw_add_connection fw now protocol ip_src ip_dst src_port dst_port := by
  induction rules with
  | nil => left; rfl
  | cons q qs ih =>
    unfold sr_fw_inspect_rules
    split
    · split
      · right; rfl
      · left; rfl
    · exact ih

/-- One call of the inspector keeps the recency order. -/
theorem sr_fw_inspect_recency (H : Host) (fw : sr_fw) (now : Int) (packet : Packet)
    (len u1 u2 : Nat) (h : recency_ordered now fw.connections) :
    recency_ordered now (sr_fw_inspect H fw now packet len u1 u2).2.connections := by
  unfold sr_fw_inspect
  split
  · exact h
  · simp only
    split
    · exact h
    · have hm := sr_fw_match_connections_recency H fw now packet.ip_p packet.ip_src
        packet.ip_dst (sr_get_ports H packet len u1 u2).2.1 (sr_get_ports H packet len u1 u2).2.2
        h
      split
      · exact hm
      · rcases sr_fw_inspect_rules_state
          (sr_fw_match_connections H fw now packet.ip_p packet.ip_src packet.ip_dst
            (sr_get_ports H packet len u1 u2).2.1 (sr_get_ports H packet len u1 u2).2.2).2
          now packet.ip_p packet.ip_src packet.ip_dst
          (sr_get_ports H packet len u1 u2).2.1 (sr_get_ports H packet len u1 u2).2.2
          (sr_fw_match_connections H fw now packet.ip_p packet.ip_src packet.ip_dst
            (sr_get_ports H packet len u1 u2).2.1
            (sr_get_ports H packet len u1 u2).2.2).2.rules with e | e
        · rw [e]; exact hm
        · rw [e]; exact sr_fw_add_connection_recency _ now _ _ _ _ _ hm

/-- A sequence of calls at non-decreasing times, none before `t0`, keeps the recency order:
the table is in recency order at every time `t` that is not before the last call. -/
theorem sr_fw_inspect_all_recency (H : Host) (calls : List inspect_call) :
    ∀ (fw : sr_fw) (t0 : Int), recency_ordered t0 fw.connections →
      List.Pairwise (fun a b => a ≤ b) (t0 :: calls.map (fun c => c.now)) →
      ∀ t : Int, t0 ≤ t → (∀ c ∈ calls, c.now ≤ t) →
        recency_ordered t (sr_fw_inspect_all H fw calls).connections := by
  induction calls with
  | nil =>
    intro fw t0 h _ t ht _
    exact recency_ordered_mono t0 t _ ht h
  | cons c cs ih =>
    intro fw t0 h hp t _ hall
    rw [List.map_cons, List.pairwise_cons] at hp
    have h0c : t0 ≤ c.now := hp.1 c.now (List.mem_cons_self _ _)
    have hstep := sr_fw_inspect_recency H fw c.now c.packet c.len c.src_port c.dst_port
      (recency_ordered_mono t0 c.now _ h0c h)
    exact ih _ c.now hstep hp.2 t (hall c (List.mem_cons_self _ _))
      (fun c' hc' => hall c' (List.mem_cons_of_mem _ hc'))

/-- C19: if the `last_seen` values of the connection table do not increase from the head on
and none is later than `now`, the same holds after `sr_fw_match_connections` at `now`,
whatever it returns, and after `sr_fw_add_connection` at `now`; hence the table is in recency
order in every state reached from a state in recency order (in particular from the empty
table) by `sr_fw_inspect` calls at non-decreasing times. -/
theorem C19_recency_order_invariant (H : Host) (fw : sr_fw) (now : Int)
    (protocol ip_src ip_dst src_port dst_port : Nat) (calls : List inspect_call)
    (h : recency_ordered now fw.connections)
    (htimes : List.Pairwise (fun a b => a ≤ b) (now :: calls.map (fun c => c.now))) :
    recency_ordered now
        (sr_fw_match_connections H fw now protocol ip_src ip_dst src_port
          dst_port).2.connections
      ∧ recency_ordered now
          (sr_fw_add_connection fw now protocol ip_src ip_dst src_port dst_port).connections
      ∧ ∀ t : Int, now ≤ t → (∀ c ∈ calls, c.now ≤ t) →
          recency_ordered t (sr_fw_inspect_all H fw calls).connections :=
  ⟨sr_fw_match_connections_recency H fw now _ _ _ _ _ h,
    sr_fw_add_connection_recency fw now _ _ _ _ _ h,
    sr_fw_inspect_all_recency H calls fw now h htimes⟩

/-- C19, worked instance: from the empty table, three calls at the times 0, 0 and 100 leave a
table in recency order at time 100. -/
theorem C19_recency_order_invariant_witness :
    recency_ordered 0 ([] : List sr_connection_t)
      ∧ recency_ordered 100
          (sr_fw_inspect_all example_host { rules := [rule_allow_tcp], connections := [] }
            [{ now := 0, packet := packet_request, len := 54, src_port := 0, dst_port := 0 },
             { now := 0, packet := packet_ssh, len := 54, src_port := 0, dst_port := 0 },
             { now := 100, packet := packet_request, len := 54, src_port := 0,
               dst_port := 0 }]).connections :=
  ⟨⟨List.Pairwise.nil, by intro e he; cases he⟩,
    (C19_recency_order_invariant example_host
      { rules := [rule_allow_tcp], connections := [] } 0 TCP 0 0 0 0
      [{ now := 0, packet := packet_request, len := 54, src_port := 0, dst_port := 0 },
       { now := 0, packet := packet_ssh, len := 54, src_port := 0, dst_port := 0 },
       { now := 100, packet := packet_request, len := 54, src_port := 0, dst_port := 0 }]
      ⟨List.Pairwise.nil, by intro e he; cases he⟩ (by decide)).2.2 100 (by decide)
      (by decide)⟩

/-! ## C20: what the lookup answers on a table in recency order -/

/-- The loop of the tracker answers 1 when an unexpired entry of the flow is still to be
scanned and the scan does not start at an expired head. -/
theorem loop_live_match (H : Host) (now : Int) (protocol ip_src ip_dst src_port dst_port : Nat)
    (rest : List sr_connection_t) :
    ∀ before : List sr_connection_t,
    (∃ c ∈ rest, ¬ expired H now c ∧ same_flow c protocol ip_src ip_dst src_port dst_port) →
    (before = [] → ∀ e, rest.head? = some e → ¬ expired H now e) →
    (sr_fw_match_connections_loop H now protocol ip_src ip_dst src_port dst_port
      before rest).1 = 1 := by
  induction rest with
  | nil => intro before h _; obtain ⟨c, hc, _⟩ := h; cases hc
  | cons conn next ih =>
    intro before hex hhead
    unfold sr_fw_match_connections_loop
    by_cases hexp : difftime now conn.last_seen > H.SR_FW_CONN_TIMEOUT
    · rw [if_pos hexp]
      have hexp' : expired H now conn := hexp
      have hnext : ∃ c ∈ next, ¬ expired H now c
          ∧ same_flow c protocol ip_src ip_dst src_port dst_port := by
        obtain ⟨c, hc, hl, hf⟩ := hex
        rcases List.mem_cons.1 hc with rfl | hc
        · exact absurd hexp' hl
        · exact ⟨c, hc, hl, hf⟩
      cases before with
      | nil => exact absurd hexp' (hhead rfl conn rfl)
      | cons p ps => exact ih (p :: ps) hnext (fun hb => by cases hb)
    · rw [if_neg hexp]
      by_cases hm : conn.protocol = protocol
          ∧ sr_match_bothdir ip_src src_port ip_dst dst_port
              conn.src_addr conn.src_port conn.dst_addr conn.dst_port = true
      · rw [if_pos hm]
        cases before <;> rfl
      · rw [if_neg hm]
        have hnext : ∃ c ∈ next, ¬ expired H now c
            ∧ same_flow c protocol ip_src ip_dst src_port dst_port := by
          obtain ⟨c, hc, hl, hf⟩ := hex
          rcases List.mem_cons.1 hc with rfl | hc
          · exact absurd ((same_flow_iff _ _ _ _ _ _).1 hf) hm
          · exact ⟨c, hc, hl, hf⟩
        exact ih (before ++ [conn]) hnext (fun hb => by simp at hb)

/-- On a table in recency order the lookup returns 1 exactly when the table holds an
unexpired entry of the flow of the query. -/
theorem sr_fw_match_connections_one_iff (H : Host) (fw : sr_fw) (now : Int)
    (protocol ip_src ip_dst src_port dst_port : Nat)
    (hord : recency_ordered now fw.connections) :
    (sr_fw_match_connections H fw now protocol ip_src ip_dst src_port dst_port).1 = 1 ↔
      ∃ c ∈ fw.connections, ¬ expired H now c
        ∧ same_flow c protocol ip_src ip_dst src_port dst_port := by
  constructor
  · intro h1
    by_contra hno
    have h0 := sr_fw_match_connections_no_live_match H fw now protocol ip_src ip_dst
      src_port dst_port (by
        intro c hc hf
        by_contra hl
        exact hno ⟨c, hc, hl, hf⟩)
    rw [h0] at h1
    exact absurd h1 (by decide)
  · intro hex
    unfold sr_fw_match_connections
    cases hc : fw.connections with
    | nil => obtain ⟨c, hmem, _⟩ := hex; rw [hc] at hmem; cases hmem
    | cons conn next =>
      rw [hc] at hex hord
      apply loop_live_match H now protocol ip_src ip_dst src_port dst_port (conn :: next) [] hex
      intro _ e he
      simp only [List.head?_cons, Option.some.injEq] at he
      subst he
      obtain ⟨c, hmem, hl, _⟩ := hex
      rcases List.mem_cons.1 hmem with rfl | hmem
      · exact hl
      · have hge : conn.last_seen ≥ c.last_seen := (List.pairwise_cons.1 hord.1).1 c hmem
        unfold expired at hl ⊢
        omega

/-- C20: for every connection table whose `last_seen` values do not increase from the head on
and of which none is later than `now`, and for every query, `sr_fw_match_connections` returns
1 if and only if the table contains an entry of age `now - last_seen` at most
`SR_FW_CONN_TIMEOUT` with the protocol of the query and with endpoints equal to
`(src:src_port, dst:dst_port)` or to `(dst:dst_port, src:src_port)`; and the result for a
query equals the result for the query with source and destination exchanged. -/
theorem C20_lookup_finds_live_flow (H : Host) (fw : sr_fw) (now : Int)
    (protocol ip_src ip_dst src_port dst_port : Nat)
    (hord : recency_ordered now fw.connections) :
    ((sr_fw_match_connections H fw now protocol ip_src ip_dst src_port dst_port).1 = 1 ↔
        ∃ c ∈ fw.connections, now - c.last_seen ≤ H.SR_FW_CONN_TIMEOUT
          ∧ c.protocol = protocol
          ∧ ((ip_src = c.src_addr ∧ src_port = c.src_port ∧ ip_dst = c.dst_addr
                ∧ dst_port = c.dst_port)
            ∨ (ip_src = c.dst_addr ∧ src_port = c.dst_port ∧ ip_dst = c.src_addr
                ∧ dst_port = c.src_port)))
      ∧ (sr_fw_match_connections H fw now protocol ip_src ip_dst src_port dst_port).1
        = (sr_fw_match_connections H fw now protocol ip_dst ip_src dst_port src_port).1 := by
  have hiff := sr_fw_match_connections_one_iff H fw now protocol ip_src ip_dst src_port
    dst_port hord
  have hiff' := sr_fw_match_connections_one_iff H fw now protocol ip_dst ip_src dst_port
    src_port hord
  constructor
  · rw [hiff]
    constructor
    · rintro ⟨c, hc, hl, hp, hf⟩
      exact ⟨c, hc, not_lt.1 hl, hp, hf⟩
    · rintro ⟨c, hc, hl, hp, hf⟩
      exact ⟨c, hc, not_lt.2 hl, hp, hf⟩
  · have hsw : (∃ c ∈ fw.connections, ¬ expired H now c
          ∧ same_flow c protocol ip_src ip_dst src_port dst_port) ↔
        (∃ c ∈ fw.connections, ¬ expired H now c
          ∧ same_flow c protocol ip_dst ip_src dst_port src_port) := by
      constructor
      · rintro ⟨c, hc, hl, hf⟩
        exact ⟨c, hc, hl, same_flow_swap c _ _ _ _ _ hf⟩
      · rintro ⟨c, hc, hl, hf⟩
        exact ⟨c, hc, hl, same_flow_swap c _ _ _ _ _ hf⟩
    have h1 : (sr_fw_match_connections H fw now protocol ip_src ip_dst src_port dst_port).1 = 1
        ↔ (sr_fw_match_connections H fw now protocol ip_dst ip_src dst_port src_port).1 = 1 :=
      hiff.trans (hsw.trans hiff'.symm)
    rcases sr_fw_match_connections_zero_or_one H fw now protocol ip_src ip_dst src_port
      dst_port with a | a <;>
    rcases sr_fw_match_connections_zero_or_one H fw now protocol ip_dst ip_src dst_port
      src_port with b | b
    · rw [a, b]
    · exact absurd (h1.2 b) (by rw [a]; decide)
    · exact absurd (h1.1 a) (by rw [b]; decide)
    · rw [a, b]

/-- C20, worked instance: the table `[other flow seen at 100, 10.0.0.1:1000 <-> 10.0.0.5:80
seen at 90]` is in recency order at time 120; the lookup returns 1 for the flow in both
orientations. -/
theorem C20_lookup_finds_live_flow_witness :
    recency_ordered 120 [conn_other 100, conn_request 90]
      ∧ (sr_fw_match_connections example_host
          { rules := [], connections := [conn_other 100, conn_request 90] }
          120 TCP 0x0100000A 0x0500000A 1000 80).1 = 1
      ∧ (sr_fw_match_connections example_host
          { rules := [], connections := [conn_other 100, conn_request 90] }
          120 TCP 0x0100000A 0x0500000A 1000 80).1
        = (sr_fw_match_connections example_host
          { rules := [], connections := [conn_other 100, conn_request 90] }
          120 TCP 0x0500000A 0x0100000A 80 1000).1 :=
  have hord : recency_ordered 120 [conn_other 100, conn_request 90] :=
    ⟨by simp [conn_other, conn_request], by simp [conn_other, conn_request]⟩
  ⟨hord,
    (C20_lookup_finds_live_flow example_host
      { rules := [], connections := [conn_other 100, conn_request 90] }
      120 TCP 0x0100000A 0x0500000A 1000 80 hord).1.2
      ⟨conn_request 90, by simp, by decide, rfl, Or.inl ⟨rfl, rfl, rfl, rfl⟩⟩,
    (C20_lookup_finds_live_flow example_host
      { rules := [], connections := [conn_other 100, conn_request 90] }
      120 TCP 0x0100000A 0x0500000A 1000 80 hord).2⟩

/-! ## C17: one entry per flow -/

/-- C17, evaluation at the failing input: the firewall is initialised and loaded with the rule
`allow tcp from any to any`. A segment `10.0.0.1:1000 -> 10.0.0.5:80` at time 0 and a segment
`10.0.0.1:1000 -> 10.0.0.5:22` at time 0 are allowed and recorded. At time 100 both entries
are older than the timeout of 60 seconds; a further segment `10.0.0.1:1000 -> 10.0.0.5:80`
makes the lookup unlink the expired head and stop, and the rule loop records the flow again:
the table then holds two entries of the same flow. -/
theorem C17_duplicate_entry_after_head_eviction :
    sr_load_fw example_host DENY IN (sr_init_fw { rules := [], connections := [] })
        (some ["allow tcp from any to any\n".toList])
        = some (0, { rules := [rule_allow_tcp], connections := [] })
      ∧ (sr_fw_inspect_all example_host { rules := [rule_allow_tcp], connections := [] }
          [{ now := 0, packet := packet_request, len := 54, src_port := 0, dst_port := 0 },
           { now := 0, packet := packet_ssh, len := 54, src_port := 0,
             dst_port := 0 }]).connections
        = [conn_ssh 0, conn_request 0]
      ∧ (sr_fw_inspect_all example_host { rules := [rule_allow_tcp], connections := [] }
          [{ now := 0, packet := packet_request, len := 54, src_port := 0, dst_port := 0 },
           { now := 0, packet := packet_ssh, len := 54, src_port := 0, dst_port := 0 },
           { now := 100, packet := packet_request, len := 54, src_port := 0,
             dst_port := 0 }]).connections
        = [conn_request 100, conn_request 0]
      ∧ flow_key (conn_request 100) = flow_key (conn_request 0) := by
  decide

/-! ## C18: connections exist for allowed flows only -/

/-- Every entry that the lookup leaves in the table records the flow of an entry that was in
the table before. -/
theorem sr_fw_match_connections_entries (H : Host) (fw : sr_fw) (now : Int)
    (protocol ip_src ip_dst src_port dst_port : Nat) :
    ∀ e ∈ (sr_fw_match_connections H fw now protocol ip_src ip_dst src_port
        dst_port).2.connections,
      ∃ e' ∈ fw.connections, flow_key e = flow_key e' := by
  intro e he
  rcases sr_fw_match_connections_zero_or_one H fw now protocol ip_src ip_dst src_port dst_port
    with h0 | h1
  · exact ⟨e, (sr_fw_match_connections_zero_sublist H fw now _ _ _ _ _ h0).subset he, rfl⟩
  · unfold sr_fw_match_connections at h1 he
    cases hc : fw.connections with
    | nil => rw [hc] at h1; simp at h1
    | cons conn next =>
      rw [hc] at h1 he
      simp only at h1 he
      obtain ⟨pre, c, post, hsplit, _, _, _, hres⟩ :=
        loop_one_shape H now protocol ip_src ip_dst src_port dst_port (conn :: next) [] h1
      rw [hres, List.nil_append] at he
      rw [hsplit]
      rcases List.mem_cons.1 he with rfl | he
      · exact ⟨c, by simp, rfl⟩
      · rcases List.mem_append.1 he with he | he
        · exact ⟨e, by simp [(List.mem_filter.1 he).1], rfl⟩
        · exact ⟨e, by simp [he], rfl⟩

/-- The rule loop of the inspector either leaves the state as it is, or its verdict is `ALLOW`
by the first matching rule and the flow is inserted. -/
theorem sr_fw_inspect_rules_trace (fw : sr_fw) (now : Int)
    (protocol ip_src ip_dst src_port dst_port : Nat) (rules : List sr_fw_rule_t) :
    (sr_fw_inspect_rules fw now protocol ip_src ip_dst src_port dst_port rules).2 = fw
      ∨ ((sr_fw_inspect_rules fw now protocol ip_src ip_dst src_port dst_port rules).1 = ALLOW
          ∧ (sr_fw_inspect_rules fw now protocol ip_src ip_dst src_port dst_port rules).2
            = sr_fw_add_connection fw now protocol ip_src ip_dst src_port dst_port
          ∧ ∃ r, first_match rules protocol ip_src ip_dst src_port dst_port = some r
              ∧ r.action = ALLOW) := by
  induction rules with
  | nil => left; rfl
  | cons q qs ih =>
    rcases sr_fw_match_zero_or_one q protocol ip_src ip_dst src_port dst_port with hq | hq
    · simp only [sr_fw_inspect_rules, hq, ne_eq, not_true_eq_false, if_false]
      rcases ih with h | ⟨h1, h2, r, hr, ha⟩
      · left; exact h
      · right
        refine ⟨h1, h2, r, ?_, ha⟩
        simpa [first_match, List.find?, hq] using hr
    · simp only [sr_fw_inspect_rules, hq, ne_eq, one_ne_zero, not_false_eq_true, if_true]
      by_cases ha : q.action = ALLOW
      · right
        exact ⟨ha, by rw [if_pos ha], q, by simp [first_match, List.find?, hq], ha⟩
      · left
        rw [if_neg ha]

/-- One call of the inspector keeps the rule table, and every entry of the connection table
after the call records the flow of an entry that was there before, or else it is the flow of
the packet, the packet is not ICMP, the verdict is `ALLOW` and the first rule matching the
flow has action `ALLOW`. -/
theorem sr_fw_inspect_entries (H : Host) (fw : sr_fw) (now : Int) (packet : Packet)
    (len u1 u2 : Nat) :
    (sr_fw_inspect H fw now packet len u1 u2).2.rules = fw.rules
      ∧ ∀ e ∈ (sr_fw_inspect H fw now packet len u1 u2).2.connections,
          (∃ e' ∈ fw.connections, flow_key e = flow_key e')
            ∨ ((sr_fw_inspect H fw now packet len u1 u2).1 = ALLOW
                ∧ packet.ip_p ≠ ICMP
                ∧ e.protocol = packet.ip_p ∧ e.src_addr = packet.ip_src
                ∧ e.dst_addr = packet.ip_dst
                ∧ ∃ r, first_match fw.rules e.protocol e.src_addr e.dst_addr e.src_port
                    e.dst_port = some r ∧ r.action = ALLOW) := by
  unfold sr_fw_inspect
  by_cases hicmp : packet.ip_p = ICMP
  · rw [if_pos hicmp]
    exact ⟨rfl, fun e he => Or.inl ⟨e, he, rfl⟩⟩
  · rw [if_neg hicmp]
    simp only
    by_cases hg : (sr_get_ports H packet len u1 u2).1 = 0
    · rw [if_pos hg]
      exact ⟨rfl, fun e he => Or.inl ⟨e, he, rfl⟩⟩
    · rw [if_neg hg]
      have hmr := sr_fw_match_connections_rules H fw now packet.ip_p packet.ip_src
        packet.ip_dst (sr_get_ports H packet len u1 u2).2.1
        (sr_get_ports H packet len u1 u2).2.2
      have hme := sr_fw_match_connections_entries H fw now packet.ip_p packet.ip_src
        packet.ip_dst (sr_get_ports H packet len u1 u2).2.1
        (sr_get_ports H packet len u1 u2).2.2
      by_cases hm : (sr_fw_match_connections H fw now packet.ip_p packet.ip_src packet.ip_dst
          (sr_get_ports H packet len u1 u2).2.1 (sr_get_ports H packet len u1 u2).2.2).1 ≠ 0
      · rw [if_pos hm]
        exact ⟨hmr, fun e he => Or.inl (hme e he)⟩
      · rw [if_neg hm]
        rcases sr_fw_inspect_rules_trace
          (sr_fw_match_connections H fw now packet.ip_p packet.ip_src packet.ip_dst
            (sr_get_ports H packet len u1 u2).2.1 (sr_get_ports H packet len u1 u2).2.2).2
          now packet.ip_p packet.ip_src packet.ip_dst
          (sr_get_ports H packet len u1 u2).2.1 (sr_get_ports H packet len u1 u2).2.2
          (sr_fw_match_connections H fw now packet.ip_p packet.ip_src packet.ip_dst
            (sr_get_ports H packet len u1 u2).2.1
            (sr_get_ports H packet len u1 u2).2.2).2.rules with h | ⟨h1, h2, r, hr, ha⟩
        · rw [h]
          exact ⟨hmr, fun e he => Or.inl (hme e he)⟩
        · rw [h2]
          refine ⟨hmr, ?_⟩
          intro e he
          rcases List.mem_cons.1 he with rfl | he
          · right
            rw [hmr] at hr
            exact ⟨h1, hicmp, rfl, rfl, rfl, r, hr, ha⟩
          · exact Or.inl (hme e he)

theorem allowed_flow_of_flow_key (rules : List sr_fw_rule_t) (e e' : sr_connection_t)
    (hk : flow_key e = flow_key e') (h : allowed_flow rules e') : allowed_flow rules e := by
  unfold flow_key at hk
  simp only [Prod.mk.injEq] at hk
  obtain ⟨h1, h2, h3, h4, h5⟩ := hk
  unfold allowed_flow at h ⊢
  rw [h1, h2, h3, h4, h5]
  exact h

/-- The first matching rule is a rule of the table that `sr_fw_match` accepts. -/
theorem first_match_some (rules : List sr_fw_rule_t)
    (protocol ip_src ip_dst src_port dst_port : Nat) (r : sr_fw_rule_t)
    (h : first_match rules protocol ip_src ip_dst src_port dst_port = some r) :
    r ∈ rules ∧ sr_fw_match r protocol ip_src ip_dst src_port dst_port = 1 := by
  unfold first_match at h
  exact ⟨List.mem_of_find?_eq_some h, by simpa using List.find?_some h⟩

/-- A sequence of calls keeps the rule table and keeps every entry of the connection table
an entry of an allowed flow. -/
theorem sr_fw_inspect_all_allowed (H : Host) (rules : List sr_fw_rule_t)
    (hwf : rules_well_formed rules) (calls : List inspect_call) :
    ∀ fw : sr_fw, fw.rules = rules → (∀ e ∈ fw.connections, allowed_flow rules e) →
      ∀ e ∈ (sr_fw_inspect_all H fw calls).connections, allowed_flow rules e := by
  induction calls with
  | nil => intro fw _ h; exact h
  | cons c cs ih =>
    intro fw hr h
    obtain ⟨hrules, hent⟩ := sr_fw_inspect_entries H fw c.now c.packet c.len c.src_port
      c.dst_port
    apply ih _ (hrules.trans hr)
    intro e he
    rcases hent e he with ⟨e', he', hk⟩ | ⟨_, hicmp, hp, _, _, r, hfm, ha⟩
    · exact allowed_flow_of_flow_key rules e e' hk (h e' he')
    · rw [hr] at hfm
      obtain ⟨hmem, hmatch⟩ := first_match_some rules _ _ _ _ _ r hfm
      have hrp : r.protocol = e.protocol := ((sr_fw_match_eq_one_iff r _ _ _ _ _).1 hmatch).1
      refine ⟨?_, r, hfm, ha⟩
      rcases hwf r hmem with h1 | h1 | h1
      · left; rw [← hrp, h1]
      · right; rw [← hrp, h1]
      · exact absurd (by rw [← hp, ← hrp, h1]) hicmp

/-- C18: in every firewall state reached from the initial state (empty connection table, a
fixed rule table whose rules name TCP, UDP or ICMP) by any sequence of `sr_fw_inspect` calls,
every entry of the connection table records a flow of protocol TCP or UDP for which the first
matching rule of the table has action `ALLOW`; and in any call, an entry of the table after
the call records the flow of an entry that was there before the call unless the packet is not
ICMP, the verdict is `ALLOW` and the first rule matching the flow has action `ALLOW`, so
no connection is created by a `DENY` verdict, by the default verdict or by an ICMP packet. -/
theorem C18_connections_only_for_allowed_flows (H : Host) (rules : List sr_fw_rule_t)
    (calls : List inspect_call) (hwf : rules_well_formed rules) :
    (∀ e ∈ (sr_fw_inspect_all H { rules := rules, connections := [] } calls).connections,
        allowed_flow rules e)
      ∧ ∀ (fw : sr_fw) (c : inspect_call),
          ∀ e ∈ (sr_fw_inspect H fw c.now c.packet c.len c.src_port c.dst_port).2.connections,
            (∃ e' ∈ fw.connections, flow_key e = flow_key e')
              ∨ ((sr_fw_inspect H fw c.now c.packet c.len c.src_port c.dst_port).1 = ALLOW
                  ∧ c.packet.ip_p ≠ ICMP
                  ∧ ∃ r, first_match fw.rules e.protocol e.src_addr e.dst_addr e.src_port
                      e.dst_port = some r ∧ r.action = ALLOW) := by
  refine ⟨?_, ?_⟩
  · exact sr_fw_inspect_all_allowed H rules hwf calls { rules := rules, connections := [] } rfl
      (by intro e he; cases he)
  · intro fw c e he
    rcases (sr_fw_inspect_entries H fw c.now c.packet c.len c.src_port c.dst_port).2 e he
      with h | ⟨h1, h2, _, _, _, h3⟩
    · exact Or.inl h
    · exact Or.inr ⟨h1, h2, h3⟩

/-- C18, worked instance: with the rules `deny tcp from any to 10.0.0.5/32 22` and
`allow tcp from any to any`, a denied segment to port 22, an ICMP packet and an allowed
segment to port 80 leave exactly the entry of the allowed flow, and it is an allowed flow. -/
theorem C18_connections_only_for_allowed_flows_witness :
    rules_well_formed [rule_deny_ssh, rule_allow_tcp]
      ∧ (sr_fw_inspect_all example_host
          { rules := [rule_deny_ssh, rule_allow_tcp], connections := [] }
          [{ now := 0, packet := packet_ssh, len := 54, src_port := 0, dst_port := 0 },
           { now := 1, packet := packet_icmp, len := 34, src_port := 0, dst_port := 0 },
           { now := 2, packet := packet_request, len := 54, src_port := 0,
             dst_port := 0 }]).connections = [conn_request 2]
      ∧ ∀ e ∈ (sr_fw_inspect_all example_host
          { rules := [rule_deny_ssh, rule_allow_tcp], connections := [] }
          [{ now := 0, packet := packet_ssh, len := 54, src_port := 0, dst_port := 0 },
           { now := 1, packet := packet_icmp, len := 34, src_port := 0, dst_port := 0 },
           { now := 2, packet := packet_request, len := 54, src_port := 0,
             dst_port := 0 }]).connections,
          allowed_flow [rule_deny_ssh, rule_allow_tcp] e :=
  have hwf : rules_well_formed [rule_deny_ssh, rule_allow_tcp] := by
    intro r hr
    simp only [List.mem_cons, List.mem_singleton, List.not_mem_nil, or_false] at hr
    rcases hr with rfl | rfl <;> exact Or.inl rfl
  ⟨hwf, by decide,
    (C18_connections_only_for_allowed_flows example_host [rule_deny_ssh, rule_allow_tcp]
      [{ now := 0, packet := packet_ssh, len := 54, src_port := 0, dst_port := 0 },
       { now := 1, packet := packet_icmp, len := 34, src_port := 0, dst_port := 0 },
       { now := 2, packet := packet_request, len := 54, src_port := 0, dst_port := 0 }]
      hwf).1⟩

end Miniroute
